import Mathlib

/-
  Verification development for the symboval repository.

  Shallow embedding conventions:
  - Python strings are modelled as List Char.
  - Python dicts are modelled as association lists in insertion order
    (assignment to an existing key updates it in place, a new key is
    appended), matching CPython dict semantics.
  - Python set objects are modelled as duplicate-free lists.
  - Calls to the global random module are modelled either abstractly
    (the sampled value is a parameter constrained by a validity
    predicate describing exactly what random.sample or random.randint
    can return) or, where a concrete seeded stream is needed, by a
    deterministic LCG standing in for the seeded Mersenne Twister.
-/

namespace Symboval

/-- Convert a Lean string literal to the List Char representation used
throughout this development. -/
def strL (s : String) : List Char := s.toList

/-- Python str.replace for a nonempty pattern: scans left to right and
replaces every non-overlapping occurrence of pat by rep, never rescanning
the replacement text.  The source only ever calls replace with nonempty
patterns (mapped tokens and glyphs); an empty pattern is treated as
matching nowhere. -/
def replaceList (pat rep : List Char) : List Char → List Char
  | [] => []
  | c :: cs =>
    if h : pat ≠ [] ∧ pat.isPrefixOf (c :: cs) then
      rep ++ replaceList pat rep ((c :: cs).drop pat.length)
    else
      c :: replaceList pat rep cs
termination_by s => s.length
decreasing_by
  all_goals simp only [List.length_drop, List.length_cons]
  · have hp : 0 < pat.length := List.length_pos.mpr h.1
    omega
  · omega

/-- Stable insertion step for sorting mapping pairs by descending key
length; an element is inserted before the first element whose key is not
longer, which preserves the original order of equal-length keys exactly as
the stable Python sorted(key=len, reverse=True) does. -/
def insertLenDesc (x : List Char × List Char) :
    List (List Char × List Char) → List (List Char × List Char)
  | [] => [x]
  | y :: ys => if y.1.length ≤ x.1.length then x :: y :: ys else y :: insertLenDesc x ys

/-- Stable sort of mapping pairs by descending length of the key, the
order used by translate_expression and reverse_translate. -/
def sortLenDesc : List (List Char × List Char) → List (List Char × List Char)
  | [] => []
  | x :: xs => insertLenDesc x (sortLenDesc xs)

/-- Association-list lookup, modelling Python dict membership and access. -/
def dictGet (k : List Char) : List (List Char × List Char) → Option (List Char)
  | [] => none
  | (k0, v0) :: rest => if k0 = k then some v0 else dictGet k rest

/-- Association-list assignment, modelling Python dict item assignment:
an existing key is updated in place, a new key is appended at the end. -/
def dictSet (k v : List Char) :
    List (List Char × List Char) → List (List Char × List Char)
  | [] => [(k, v)]
  | (k0, v0) :: rest => if k0 = k then (k, v) :: rest else (k0, v0) :: dictSet k v rest

/-- Add an element to a Python set modelled as a duplicate-free list. -/
def setAdd (x : List Char) (s : List (List Char)) : List (List Char) :=
  if x ∈ s then s else s ++ [x]

/-- State of a SymbolMapper instance: the forward token-to-glyph dict, the
reverse glyph-to-token dict, and the set of consumed glyphs. -/
structure MapperState where
  mappings : List (List Char × List Char)
  reverse_mappings : List (List Char × List Char)
  used_symbols : List (List Char)
deriving DecidableEq

/-- The state of a freshly constructed SymbolMapper. -/
def mapperInit : MapperState := ⟨[], [], []⟩

/-- Default glyph pool for number mappings (UNICODE_NUMBERS). -/
def UNICODE_NUMBERS : List (List Char) :=
  [strL "∰", strL "∴", strL "∵", strL "∃", strL "∀", strL "∈", strL "∉",
   strL "⊂", strL "⊃", strL "⊆", strL "⊇", strL "⊕", strL "⊗", strL "⊙",
   strL "⊚", strL "⊛", strL "⊝", strL "⊞", strL "⊟", strL "⊠"]

/-- Default glyph pool for operator mappings (UNICODE_OPERATORS). -/
def UNICODE_OPERATORS : List (List Char) :=
  [strL "⊕", strL "⊖", strL "⊗", strL "⊘", strL "⊙", strL "⊚", strL "⊛",
   strL "⊜", strL "⊝", strL "⊞", strL "∗", strL "∘", strL "∙", strL "√",
   strL "∛", strL "∜", strL "⨁", strL "⨂", strL "⨀", strL "⊎"]

/-- Default glyph pool for relation mappings (UNICODE_RELATIONS). -/
def UNICODE_RELATIONS : List (List Char) :=
  [strL "≜", strL "≝", strL "≞", strL "≟", strL "≠", strL "≡", strL "≢",
   strL "≣", strL "≤", strL "≥", strL "≦", strL "≧", strL "≨", strL "≩",
   strL "⊏", strL "⊐", strL "⊑", strL "⊒", strL "⋖", strL "⋗"]

/-- Default glyph pool for variable mappings (UNICODE_VARIABLES). -/
def UNICODE_VARIABLES : List (List Char) :=
  [strL "α", strL "β", strL "γ", strL "δ", strL "ε", strL "ζ", strL "η",
   strL "θ", strL "ι", strL "κ", strL "λ", strL "μ", strL "ν", strL "ξ",
   strL "π", strL "ρ", strL "σ", strL "τ", strL "υ", strL "φ", strL "χ",
   strL "ψ", strL "ω", strL "Γ", strL "Δ", strL "Θ", strL "Λ", strL "Ξ",
   strL "Π", strL "Σ"]

/-- Glyphs of a pool that are not yet consumed by this mapper, the list
comprehension avail in every create mapping method. -/
def availableIn (pool : List (List Char)) (used : List (List Char)) :
    List (List Char) :=
  pool.filter (fun s => decide (s ∉ used))

/-- Shared loop body of create_number_mapping, create_operator_mapping,
create_relation_mapping and create_variable_mapping: record each
token-glyph pair in the forward dict, the swapped pair in the reverse
dict, and mark the glyph consumed.  The argument selected stands for the
list returned by random.sample(avail, len(tokens)). -/
def create_mapping_core (m : MapperState) (tokens : List (List Char))
    (selected : List (List Char)) : MapperState :=
  (tokens.zip selected).foldl
    (fun st p =>
      { mappings := dictSet p.1 p.2 st.mappings,
        reverse_mappings := dictSet p.2 p.1 st.reverse_mappings,
        used_symbols := setAdd p.2 st.used_symbols })
    m

/-- translate_expression: replaces every mapped standard token by its
glyph, longest tokens first (stable sort by descending key length), each
step being a full textual replace. -/
def translate_expression (m : MapperState) (expression : List Char)
    (use_mapping : Bool := true) : List Char :=
  if !use_mapping then expression
  else (sortLenDesc m.mappings).foldl (fun result p => replaceList p.1 p.2 result) expression

/-- reverse_translate: the symmetric sweep over the reverse dict, glyphs
replaced by their standard tokens, longest keys first. -/
def reverse_translate (m : MapperState) (expression : List Char) : List Char :=
  (sortLenDesc m.reverse_mappings).foldl (fun result p => replaceList p.1 p.2 result) expression

/-- All characters occurring in the keys of a reverse-mapping list, that
is, the glyph characters under the jurisdiction of the mapper. -/
def keyChars (rs : List (List Char × List Char)) : List Char :=
  rs.flatMap (fun p => p.1)

/-- Character-level substitution induced by a reverse-mapping list whose
keys are single glyph characters: a glyph character is sent to its
standard token, every other character to itself. -/
def subst (rs : List (List Char × List Char)) (c : Char) : List Char :=
  match rs.find? (fun p => decide (p.1 = [c])) with
  | some p => p.2
  | none => [c]

/-- Substitute every character of a string through subst. -/
def unglyph (rs : List (List Char × List Char)) (s : List Char) : List Char :=
  s.flatMap (subst rs)

/-- All characters occurring in the glyph strings (values) of a forward
mapping list. -/
def glyphChars (l : List (List Char × List Char)) : List Char :=
  l.flatMap (fun p => p.2)

/-- Concrete mapper used in the round-trip witness: the two-digit token 12
maps to a therefore-sign glyph and the plus token to a circled plus. -/
def witnessMapperC1 : MapperState :=
  { mappings := [(strL "12", strL "∴"), (strL "+", strL "⊕")],
    reverse_mappings := [(strL "∴", strL "12"), (strL "⊕", strL "+")],
    used_symbols := [strL "∴", strL "⊕"] }

/-- Category of a create mapping call, selecting the default glyph pool. -/
inductive MapCat where
  | number
  | operator
  | relation
  | variable
deriving DecidableEq

/-- Default pool used by each create mapping method when the caller
supplies none. -/
def defaultPool : MapCat → List (List Char)
  | .number => UNICODE_NUMBERS
  | .operator => UNICODE_OPERATORS
  | .relation => UNICODE_RELATIONS
  | .variable => UNICODE_VARIABLES

/-- One create mapping call: the category, the standard tokens, the
optional caller-supplied pool, and the glyph list that random.sample
returned for this call. -/
structure MapCall where
  cat : MapCat
  tokens : List (List Char)
  pool : Option (List (List Char))
  selected : List (List Char)
deriving DecidableEq

/-- Effective pool of a call (the caller-supplied one or the default). -/
def callPool (c : MapCall) : List (List Char) :=
  c.pool.getD (defaultPool c.cat)

/-- Apply one create mapping call to a mapper state. -/
def applyCall (m : MapperState) (c : MapCall) : MapperState :=
  create_mapping_core m c.tokens c.selected

/-- Run a sequence of create mapping calls. -/
def runMapCalls (m : MapperState) (calls : List MapCall) : MapperState :=
  calls.foldl applyCall m

/-- A call succeeds and its selected glyphs are a possible output of
random.sample(avail, len(tokens)): right length, duplicate free, and drawn
from the pool minus the already consumed glyphs.  Success of the call in
the source is exactly len(avail) being at least len(tokens), which these
conditions imply. -/
def callValid (m : MapperState) (c : MapCall) : Bool :=
  (c.selected.length == c.tokens.length) &&
  decide c.selected.Nodup &&
  decide (∀ g ∈ c.selected, g ∈ availableIn (callPool c) m.used_symbols)

/-- Every call in the sequence is valid at the state it runs in. -/
def validCalls : MapperState → List MapCall → Bool
  | _, [] => true
  | m, c :: rest => callValid m c && validCalls (applyCall m c) rest

/-- The tokens of a call are pairwise distinct and none of them is
already mapped; this is the freshness precondition that the amended C2
adds. -/
def callFresh (m : MapperState) (c : MapCall) : Bool :=
  decide c.tokens.Nodup &&
  decide (∀ t ∈ c.tokens, dictGet t m.mappings = none)

/-- Every call in the sequence is token-fresh at the state it runs in. -/
def freshCalls : MapperState → List MapCall → Bool
  | _, [] => true
  | m, c :: rest => callFresh m c && freshCalls (applyCall m c) rest

/-- Invariant claimed by the spec for a mapper: the reverse table is the
entrywise swap of the forward table (so the two are exact inverses), no
standard token has two entries, no glyph is assigned to two different
standard tokens, and the consumed-glyph set is exactly the set of
assigned glyphs. -/
def MapperInv (m : MapperState) : Prop :=
  m.reverse_mappings = m.mappings.map (fun p => (p.2, p.1)) ∧
  (m.mappings.map Prod.fst).Nodup ∧
  (m.mappings.map Prod.snd).Nodup ∧
  m.used_symbols = m.mappings.map Prod.snd

/-- Witness call for the amended C2: one number-mapping call assigning two
fresh tokens from the default pool. -/
def witnessCallC2 : MapCall :=
  { cat := .number, tokens := [strL "1", strL "2"], pool := none,
    selected := [strL "∴", strL "∵"] }

/-- First counterexample call: map token 1 from a one-glyph pool. -/
def cexCallA : MapCall :=
  { cat := .number, tokens := [strL "1"], pool := some [strL "∴"],
    selected := [strL "∴"] }

/-- Second counterexample call: map token 1 again from a two-glyph pool;
the only available glyph is the circled plus, so random.sample is forced
to return it and the call succeeds. -/
def cexCallB : MapCall :=
  { cat := .number, tokens := [strL "1"], pool := some [strL "∴", strL "⊕"],
    selected := [strL "⊕"] }

/-- Difficulty levels of generated problems. -/
inductive ProblemDifficulty where
  | EASY
  | MEDIUM
  | HARD
deriving DecidableEq

/-- The value string of a difficulty enum member. -/
def difficultyValue : ProblemDifficulty → List Char
  | .EASY => strL "easy"
  | .MEDIUM => strL "medium"
  | .HARD => strL "hard"

/-- Mathematical principles; transitivity and inverse are declared but
have no registered template. -/
inductive MathematicalPrinciple where
  | COMMUTATIVITY
  | ASSOCIATIVITY
  | DISTRIBUTIVITY
  | IDENTITY
  | INVERSE
  | TRANSITIVITY
  | BASIC_ARITHMETIC
  | MULTI_STEP
deriving DecidableEq

/-- The value string of a principle enum member. -/
def principleValue : MathematicalPrinciple → List Char
  | .COMMUTATIVITY => strL "commutativity"
  | .ASSOCIATIVITY => strL "associativity"
  | .DISTRIBUTIVITY => strL "distributivity"
  | .IDENTITY => strL "identity"
  | .INVERSE => strL "inverse"
  | .TRANSITIVITY => strL "transitivity"
  | .BASIC_ARITHMETIC => strL "basic_arithmetic"
  | .MULTI_STEP => strL "multi_step"

/-- Python repr of a principle enum member, as interpolated into the
no-template error message. -/
def principleRepr (p : MathematicalPrinciple) : List Char :=
  strL "MathematicalPrinciple." ++
  (match p with
   | .COMMUTATIVITY => strL "COMMUTATIVITY"
   | .ASSOCIATIVITY => strL "ASSOCIATIVITY"
   | .DISTRIBUTIVITY => strL "DISTRIBUTIVITY"
   | .IDENTITY => strL "IDENTITY"
   | .INVERSE => strL "INVERSE"
   | .TRANSITIVITY => strL "TRANSITIVITY"
   | .BASIC_ARITHMETIC => strL "BASIC_ARITHMETIC"
   | .MULTI_STEP => strL "MULTI_STEP")

/-- Metadata stored on a Problem by the template that generated it. -/
inductive Metadata where
  | pairOp (a b : Int) (op : Char)
  | tripleOp (a b c : Int) (op : Char)
  | triple (a b c : Int)
  | multiStep (numbers : List Int) (operators : List Char)
  | identityMeta (a : Int) (identity_type : List Char)
deriving DecidableEq

/-- A generated problem.  The source fields standard_notation and
novel_notation are called standard_text and novel_text here. -/
structure Problem where
  question : List Char
  answer : List Char
  principle : MathematicalPrinciple
  difficulty : ProblemDifficulty
  requires_reasoning : Bool
  standard_text : List Char
  novel_text : List Char
  metadata : Metadata
deriving DecidableEq

/-- Type of the stand-in for random.sample as used by the prompt builder:
given the population and the requested count it returns the sampled
sublist. -/
def SampleFn : Type :=
  List (List Char × List Char) → Nat → List (List Char × List Char)

/-- The fixed system instruction of the prompt builder. -/
def build_system_prompt : List Char :=
  strL "You are a mathematical reasoning assistant. You will be given problems " ++
  strL "using novel mathematical notation. Your task is to solve these problems " ++
  strL "by understanding the underlying mathematical relationships. " ++
  strL "Provide only the final answer in the same notation as the problem."

/-- The private helper extracting, in first-occurrence order, the set of
characters of an expression that are keys of the reverse dict. -/
def extract_symbols_from_expression (m : MapperState) (expression : List Char) :
    List Char :=
  expression.foldl
    (fun symbols ch =>
      if (dictGet [ch] m.reverse_mappings).isSome then
        if ch ∈ symbols then symbols else symbols ++ [ch]
      else symbols)
    []

/-- The private helper listing the (standard, novel) pairs for the given
novel symbols, skipping symbols without a reverse entry. -/
def get_mappings_for_symbols (m : MapperState) (symbols : List Char) :
    List (List Char × List Char) :=
  symbols.foldl
    (fun acc ch =>
      match dictGet [ch] m.reverse_mappings with
      | some standard => acc ++ [(standard, [ch])]
      | none => acc)
    []

/-- get_mapping_examples: all entries when few enough, otherwise a random
sample of the requested size. -/
def get_mapping_examples (m : MapperState) (sample : SampleFn)
    (num_examples : Nat) : List (List Char × List Char) :=
  if m.mappings.length ≤ num_examples then m.mappings
  else sample m.mappings num_examples

/-- Python str.isdigit: nonempty and all digit characters (restricted
here to ASCII digits, the only digits the generator produces). -/
def pyIsDigit (s : List Char) : Bool :=
  !s.isEmpty && s.all Char.isDigit

/-- One legend line: two spaces, the novel glyph, the word represents,
and the standard meaning rendered through the fixed operator name table,
the equals special case, or literally. -/
def exampleLine (p : List Char × List Char) : List Char :=
  let std := p.1
  let nov := p.2
  let meaning :=
    if pyIsDigit std then std
    else if std = strL "+" then strL "plus"
    else if std = strL "-" then strL "minus"
    else if std = strL "*" then strL "times"
    else if std = strL "/" then strL "divided by"
    else if std = strL "=" then strL "equals"
    else std
  strL "  " ++ nov ++ strL " represents " ++ meaning ++ strL "\n"

/-- build_example_section: the legend block.  A zero example count yields
the fixed no-examples text; a nonempty required_symbols set always
contributes all of its entries first, padded with randomly sampled
additional entries up to the requested count; otherwise the legend is a
random selection of mapping entries. -/
def build_example_section (m : MapperState) (sample : SampleFn)
    (num_examples : Nat) (required_symbols : List Char) : List Char :=
  if num_examples = 0 then
    strL "You will solve mathematical problems using novel notation. No examples are provided.\n"
  else
    let exs :=
      if required_symbols ≠ [] then
        let required_mappings := get_mappings_for_symbols m required_symbols
        let remaining : Int := (num_examples : Int) - required_mappings.length
        if remaining > 0 then
          let available := m.mappings.filter (fun p => decide (p ∉ required_mappings))
          if available ≠ [] then
            required_mappings ++ sample available (min remaining.toNat available.length)
          else required_mappings
        else required_mappings
      else get_mapping_examples m sample num_examples
    strL "You will be given mathematical problems using a novel notation system. " ++
    strL "Here are the basic symbol mappings:\n\n" ++
    exs.foldl (fun txt p => txt ++ exampleLine p) [] ++
    strL "\nUsing these mappings, solve the following problems.\n"

/-- build_problem_prompt: the problem statement block. -/
def build_problem_prompt (problem : Problem) (use_novel : Bool)
    (include_thinking : Bool) : List Char :=
  let question := if use_novel then problem.novel_text else problem.standard_text
  let prompt := strL "Problem: " ++ question ++ strL "\n"
  if include_thinking then
    prompt ++
    strL "\nPlease show your reasoning step-by-step, then provide your final answer.\n" ++
    strL "Format your response as:\nReasoning: [your step-by-step work]\nAnswer: [final answer]\n"
  else
    prompt ++ strL "\nAnswer: "

/-- build_comparative_prompt: the standard-notation and novel-notation
prompts for the same problem; the novel side carries a legend whose
required symbols are exactly the reverse-mapped characters of the novel
text. -/
def build_comparative_prompt (m : MapperState) (sample : SampleFn)
    (problem : Problem) (num_examples : Nat := 5) : List Char × List Char :=
  let standard_prompt :=
    build_system_prompt ++ strL "\n\n" ++
    strL "Solve the following problem:\n\n" ++
    build_problem_prompt problem false true
  let problem_symbols := extract_symbols_from_expression m problem.novel_text
  let novel_prompt :=
    build_system_prompt ++ strL "\n\n" ++
    build_example_section m sample num_examples problem_symbols ++ strL "\n" ++
    build_problem_prompt problem true true
  (standard_prompt, novel_prompt)

/-- Deterministic stand-in for random.sample in concrete prompt-builder
computations: take the first k entries of the population (any sample
would do for the properties stated here). -/
def sampleTake : SampleFn := fun population k => population.take k

/-- Concrete one-entry mapper for the C3 witness and counterexample. -/
def mapperC3 : MapperState :=
  { mappings := [(strL "5", strL "∴")],
    reverse_mappings := [(strL "∴", strL "5")],
    used_symbols := [strL "∴"] }

/-- Concrete problem whose novel notation uses the mapped glyph. -/
def problemC3 : Problem :=
  { question := strL "5 + 5 = ?", answer := strL "10",
    principle := .BASIC_ARITHMETIC, difficulty := .EASY,
    requires_reasoning := false,
    standard_text := strL "5 + 5 = ?", novel_text := strL "∴ + ∴ = ?",
    metadata := .pairOp 5 5 '+' }

/-- ASCII whitespace recognized by the Python regex class backslash-s and
by str.strip (the inputs of interest are ASCII; wider Unicode whitespace
is not modelled). -/
def isPySpace (c : Char) : Bool :=
  c = ' ' || c = '\t' || c = '\n' || c = '\r' || c = '\x0b' || c = '\x0c'

/-- Python str.strip: remove leading and trailing whitespace. -/
def pyStrip (s : List Char) : List Char :=
  ((s.dropWhile isPySpace).reverse.dropWhile isPySpace).reverse

/-- Split an optional leading sign character off a string, as the regex
fragment of an optional plus or minus does. -/
def splitSign : List Char → List Char × List Char
  | [] => ([], [])
  | c :: cs => if c = '+' || c = '-' then ([c], cs) else ([], c :: cs)

/-- Greedy match of the regex fragment for a signed integer or decimal
(optional sign, one or more digits, optionally a dot and one or more
digits) at the start of the string, returning the matched text and the
remainder.  Greedy matching is exactly equivalent to the backtracking
regex here because shortening a digit run always leaves a digit next,
which no following regex element accepts.  Digits are ASCII digits (the
Python pattern uses the digit class; the responses of interest are
ASCII). -/
def matchNumber (s : List Char) : Option (List Char × List Char) :=
  let sign := (splitSign s).1
  let s1 := (splitSign s).2
  let ds := s1.takeWhile Char.isDigit
  let s2 := s1.dropWhile Char.isDigit
  if ds.isEmpty then none
  else
    match s2 with
    | '.' :: s3 =>
      if (s3.takeWhile Char.isDigit).isEmpty then some (sign ++ ds, s2)
      else some (sign ++ ds ++ '.' :: s3.takeWhile Char.isDigit,
                 s3.dropWhile Char.isDigit)
    | _ => some (sign ++ ds, s2)

/-- Case-insensitive match of a literal (given lowercased) at the start
of the string, returning the remainder. -/
def matchCaseless : List Char → List Char → Option (List Char)
  | [], s => some s
  | _ :: _, [] => none
  | p :: ps, c :: cs => if c.toLower = p then matchCaseless ps cs else none

/-- Match the alternation of the literal is (case-insensitive) or a
colon at the start of the string. -/
def matchIsOrColon : List Char → Option (List Char)
  | ':' :: cs => some cs
  | c :: d :: ds => if c.toLower = 'i' ∧ d.toLower = 's' then some ds else none
  | _ => none

/-- Attempt of extraction pattern 1 at one position: the word answer
(case-insensitive), optional whitespace, is or colon, optional
whitespace, then a signed number, whose text is returned. -/
def pattern1At (s : List Char) : Option (List Char) :=
  match matchCaseless (strL "answer") s with
  | none => none
  | some r1 =>
    match matchIsOrColon (r1.dropWhile isPySpace) with
    | none => none
    | some r2 => (matchNumber (r2.dropWhile isPySpace)).map Prod.fst

/-- re.search for pattern 1: leftmost position where the whole pattern
matches. -/
def searchPat1 : List Char → Option (List Char)
  | [] => none
  | c :: cs =>
    match pattern1At (c :: cs) with
    | some v => some v
    | none => searchPat1 cs

/-- Attempt of extraction pattern 2 at one position: an equals sign,
optional whitespace, a signed number, optional whitespace, then the end
of the (already stripped) response. -/
def pattern2At : List Char → Option (List Char)
  | '=' :: rest =>
    (match matchNumber (rest.dropWhile isPySpace) with
     | some p => if (p.2.dropWhile isPySpace).isEmpty then some p.1 else none
     | none => none)
  | _ => none

/-- re.search for pattern 2. -/
def searchPat2 : List Char → Option (List Char)
  | [] => none
  | c :: cs =>
    match pattern2At (c :: cs) with
    | some v => some v
    | none => searchPat2 cs

/-- Fuel-driven scan implementing re.findall of the signed-number
pattern: at each position, emit the greedy match and resume after it, or
advance one character.  One unit of fuel is spent per step and every
step consumes at least one character of the string, so the initial fuel
equal to the length of the string never runs out; the unfolding theorems
below establish the natural recursion equations. -/
def findAllAux : Nat → List Char → List (List Char)
  | 0, _ => []
  | _ + 1, [] => []
  | fuel + 1, c :: cs =>
    match matchNumber (c :: cs) with
    | some p => p.1 :: findAllAux fuel p.2
    | none => findAllAux fuel cs

/-- re.findall of the signed-number pattern over the whole response. -/
def findAllNumbers (s : List Char) : List (List Char) :=
  findAllAux s.length s

/-- extract_answer: strip the response, then apply the three patterns in
strict precedence — answer-is or answer-colon anywhere, a number after a
final equals sign, and the last number anywhere — returning none when
none of them matches. -/
def extract_answer (response : List Char) : Option (List Char) :=
  let r := pyStrip response
  match searchPat1 r with
  | some v => some v
  | none =>
    match searchPat2 r with
    | some v => some v
    | none =>
      match (findAllNumbers r).getLast? with
      | some v => some v
      | none => none

/-- Numeric value of a run of ASCII digits. -/
def digitsToNat (ds : List Char) : Nat :=
  ds.foldl (fun n c => 10 * n + (c.toNat - Char.toNat '0')) 0

/-- Exponent part of the Python float grammar after the letter e: an
optional sign and a nonempty digit run. -/
def parseExp (r : List Char) : Option (Int × List Char) :=
  let sgn := (splitSign r).1
  let r1 := (splitSign r).2
  let ds := r1.takeWhile Char.isDigit
  let r2 := r1.dropWhile Char.isDigit
  if ds.isEmpty then none
  else some ((if sgn = ['-'] then -(digitsToNat ds : Int)
              else (digitsToNat ds : Int)), r2)

/-- Assemble the exact rational value of a parsed float from its sign,
unsigned mantissa digits and decimal exponent, as an integer numerator
paired with a positive power-of-ten denominator.  Rationals are kept
unnormalized here so that every arithmetic step is a plain integer
operation. -/
def floatVal (sgn : List Char) (n : Nat) (e : Int) : Int × Nat :=
  let signed : Int := if sgn = ['-'] then -(n : Int) else (n : Int)
  if 0 ≤ e then (signed * 10 ^ e.toNat, 1) else (signed, 10 ^ (-e).toNat)

/-- Model of Python float(str): surrounding whitespace, an optional
sign, a finite decimal mantissa with optional fraction, and an optional
decimal exponent, evaluated as an exact rational numerator/denominator
pair.  The special float literals inf and nan and digit-group
underscores are not modelled; no such string can reach check_answer from
the extraction patterns, whose matches are plain finite decimals. -/
def pyFloat (s : List Char) : Option (Int × Nat) :=
  let t := pyStrip s
  let sgn := (splitSign t).1
  let t1 := (splitSign t).2
  let ds := t1.takeWhile Char.isDigit
  let r1 := t1.dropWhile Char.isDigit
  let mant : Option ((Nat × Nat) × List Char) :=
    match r1 with
    | '.' :: r2 =>
      let fs := r2.takeWhile Char.isDigit
      if ds.isEmpty && fs.isEmpty then none
      else some ((digitsToNat ds * 10 ^ fs.length + digitsToNat fs, fs.length),
                 r2.dropWhile Char.isDigit)
    | _ => if ds.isEmpty then none else some ((digitsToNat ds, 0), r1)
  match mant with
  | none => none
  | some ((n, k), r) =>
    match
      (match r with
       | 'e' :: r2 => (parseExp r2).map (fun (q : Int × List Char) => (-(k : Int) + q.1, q.2))
       | 'E' :: r2 => (parseExp r2).map (fun (q : Int × List Char) => (-(k : Int) + q.1, q.2))
       | _ => some (-(k : Int), r)) with
    | none => none
    | some (e, r4) =>
      if r4.isEmpty then some (floatVal sgn n e) else none

/-- Exact comparison of the distance of two parsed floats against the
tolerance, by cross multiplication of the positive denominators. -/
def absDiffLt (a b tol : Int × Nat) : Bool :=
  decide ((((a.1 * (b.2 : Int) - b.1 * (a.2 : Int)).natAbs : Int) * (tol.2 : Int)) <
    tol.1 * ((a.2 : Int) * (b.2 : Int)))

/-- The rational number denoted by a numerator/denominator pair. -/
def ratVal (p : Int × Nat) : ℚ :=
  (p.1 : ℚ) / (p.2 : ℚ)

/-- check_answer: a missing extracted answer is incorrect; otherwise try
to parse both strings as floats and compare within the tolerance, and on
any parse failure fall back to exact comparison of the stripped
strings. -/
def check_answer (extracted : Option (List Char)) (expected : List Char)
    (tolerance : Int × Nat := (1, 100)) : Bool :=
  match extracted with
  | none => false
  | some e =>
    match pyFloat e, pyFloat expected with
    | some a, some b => absDiffLt a b tolerance
    | _, _ => decide (pyStrip e = pyStrip expected)

/-- Response of the remote model client for one request. -/
structure ModelResponse where
  model : List Char
  response : List Char
  prompt_tokens : Nat
  completion_tokens : Nat
  total_tokens : Nat
  latency : ℚ
deriving DecidableEq

/-- Result record of evaluating a single problem. -/
structure EvaluationResult where
  problem_id : Nat
  principle : List Char
  difficulty : List Char
  expected_answer : List Char
  model_response : List Char
  extracted_answer : Option (List Char)
  is_correct : Bool
  requires_reasoning : Bool
  model : List Char
  prompt_tokens : Nat
  completion_tokens : Nat
  latency : ℚ
  timestamp : List Char
deriving DecidableEq

/-- evaluate_problem after a successful remote call: extract a candidate
answer from the response text, compare it to the expected answer, and
assemble the result record. -/
def evaluate_problem (resp : ModelResponse) (problem : Problem)
    (problem_id : Nat) (timestamp : List Char) : EvaluationResult :=
  let extracted := extract_answer resp.response
  { problem_id := problem_id,
    principle := principleValue problem.principle,
    difficulty := difficultyValue problem.difficulty,
    expected_answer := problem.answer,
    model_response := resp.response,
    extracted_answer := extracted,
    is_correct := check_answer extracted problem.answer,
    requires_reasoning := problem.requires_reasoning,
    model := resp.model,
    prompt_tokens := resp.prompt_tokens,
    completion_tokens := resp.completion_tokens,
    latency := resp.latency,
    timestamp := timestamp }

/-- The synthetic failed result appended when the remote call for one
pair raises: null extracted answer, incorrect, zero token counts, zero
latency, and an error-describing response text. -/
def failedResult (model timestamp : List Char) (i : Nat) (problem : Problem)
    (e : List Char) : EvaluationResult :=
  { problem_id := i,
    principle := principleValue problem.principle,
    difficulty := difficultyValue problem.difficulty,
    expected_answer := problem.answer,
    model_response := strL "ERROR: " ++ e,
    extracted_answer := none,
    is_correct := false,
    requires_reasoning := problem.requires_reasoning,
    model := model,
    prompt_tokens := 0,
    completion_tokens := 0,
    latency := 0,
    timestamp := timestamp }

/-- Body of the per-pair try block of evaluate_problems: the remote call
for pair i (modelled by the oracle, which stands for client.complete on
the corresponding prompt) either succeeds, giving the ordinary result,
or raises, giving the synthetic failed result. -/
def stepResult (oracle : Nat → Except (List Char) ModelResponse)
    (model timestamp : List Char) (i : Nat) (problem : Problem) :
    EvaluationResult :=
  match oracle i with
  | .ok resp => evaluate_problem resp problem i timestamp
  | .error e => failedResult model timestamp i problem e

/-- The enumerated loop of evaluate_problems over the zipped
problem/prompt pairs, appending one result per pair and never aborting. -/
def evaluate_loop (oracle : Nat → Except (List Char) ModelResponse)
    (model timestamp : List Char) :
    Nat → List (Problem × List Char) → List EvaluationResult
  | _, [] => []
  | i, (problem, _prompt) :: rest =>
    stepResult oracle model timestamp i problem ::
      evaluate_loop oracle model timestamp (i + 1) rest

/-- evaluate_problems: raises when the problem and prompt lists have
different lengths, before any request is sent; otherwise runs the loop
over the zipped pairs from index zero.  The fixed inter-request sleep
has no observable effect on the returned value and is not modelled. -/
def evaluate_problems (problems : List Problem) (prompts : List (List Char))
    (oracle : Nat → Except (List Char) ModelResponse)
    (model timestamp : List Char) :
    Except (List Char) (List EvaluationResult) :=
  if problems.length ≠ prompts.length then
    .error (strL "Number of problems must match number of prompts")
  else
    .ok (evaluate_loop oracle model timestamp 0 (problems.zip prompts))

/-- Problems used by the evaluator witnesses. -/
def problemsW : List Problem :=
  [{ question := strL "1 + 1 = ?", answer := strL "2",
     principle := .BASIC_ARITHMETIC, difficulty := .EASY,
     requires_reasoning := false, standard_text := strL "1 + 1 = ?",
     novel_text := strL "1 + 1 = ?", metadata := .pairOp 1 1 '+' },
   { question := strL "2 + 3 = ?", answer := strL "5",
     principle := .BASIC_ARITHMETIC, difficulty := .EASY,
     requires_reasoning := false, standard_text := strL "2 + 3 = ?",
     novel_text := strL "2 + 3 = ?", metadata := .pairOp 2 3 '+' },
   { question := strL "4 + 4 = ?", answer := strL "8",
     principle := .BASIC_ARITHMETIC, difficulty := .EASY,
     requires_reasoning := false, standard_text := strL "4 + 4 = ?",
     novel_text := strL "4 + 4 = ?", metadata := .pairOp 4 4 '+' }]

/-- Prompts used by the evaluator witnesses. -/
def promptsW : List (List Char) :=
  [strL "p1", strL "p2", strL "p3"]

/-- Oracle for the C6 witness: the second request raises a transport
failure, the others succeed. -/
def oracleW : Nat → Except (List Char) ModelResponse :=
  fun i =>
    if i = 1 then .error (strL "HTTP 500: upstream error")
    else .ok { model := strL "test-model", response := strL "The answer is 2.",
               prompt_tokens := 7, completion_tokens := 5, total_tokens := 12,
               latency := 1 }

/-- Python str of a natural number. -/
def natStr (n : Nat) : List Char := Nat.toDigits 10 n

/-- Python str of an integer. -/
def intStr (n : Int) : List Char :=
  if n < 0 then '-' :: natStr n.natAbs else natStr n.natAbs

/-- One update of the running result in the multi-step loop: add on
plus, subtract on minus, multiply otherwise. -/
def applyOp (op : Char) (x y : Int) : Int :=
  if op = '+' then x + y else if op = '-' then x - y else x * y

/-- Number of chained operators: two at medium difficulty, three
otherwise (hard and easy alike in the source). -/
def multiStepNumOps (difficulty : ProblemDifficulty) : Nat :=
  if difficulty = .MEDIUM then 2 else 3

/-- MultiStepTemplate.generate with the sampled operands and operators
made explicit: builds the expression text and the running left-to-right
result in one loop, then assembles the Problem, translating the question
through the mapper when one is supplied.  The numbers and operators
arguments stand for the randint and choices draws. -/
def multiStep_generate (difficulty : ProblemDifficulty) (numbers : List Int)
    (operators : List Char) (mapper : Option MapperState) : Problem :=
  let n0 := numbers.headI
  let step :=
    (operators.zip (numbers.drop 1)).foldl
      (fun (acc : List Char × Int) p =>
        (acc.1 ++ ' ' :: p.1 :: ' ' :: intStr p.2, applyOp p.1 acc.2 p.2))
      (intStr n0, n0)
  let standard_question := step.1 ++ strL " = ?"
  let standard_answer := intStr step.2
  let novel_question :=
    match mapper with
    | some sm => translate_expression sm standard_question
    | none => standard_question
  { question := standard_question, answer := standard_answer,
    principle := .MULTI_STEP, difficulty := difficulty,
    requires_reasoning := true,
    standard_text := standard_question, novel_text := novel_question,
    metadata := .multiStep numbers operators }

/-- The values the random draws of MultiStepTemplate.generate can
produce: the difficulty-determined operator count, one more operand than
operators, operands in the difficulty range, operators among plus,
minus and times. -/
@[reducible]
def MultiStepValid (difficulty : ProblemDifficulty) (numbers : List Int)
    (operators : List Char) : Prop :=
  operators.length = multiStepNumOps difficulty ∧
  numbers.length = multiStepNumOps difficulty + 1 ∧
  (∀ x ∈ numbers,
    if difficulty = .MEDIUM then 1 ≤ x ∧ x ≤ 20 else 5 ≤ x ∧ x ≤ 50) ∧
  (∀ op ∈ operators, op = '+' ∨ op = '-' ∨ op = '*')

/-- Strict left-to-right re-evaluation of a recorded operand/operator
sequence, ignoring operator precedence: the first operand seeds the
accumulator and each operator folds in the next operand. -/
def evalLeftToRight (numbers : List Int) (operators : List Char) : Int :=
  match numbers with
  | [] => 0
  | n :: rest => (operators.zip rest).foldl (fun acc p => applyOp p.1 acc p.2) n

/-- Deterministic pseudo-random step (a 64-bit LCG) standing in for the
seeded Mersenne Twister of the random module: what matters for the
claims settled here is that the stream is a pure function of the seed. -/
def randNext (s : Nat) : Nat :=
  (6364136223846793005 * s + 1442695040888963407) % 2 ^ 64

/-- State of the global random generator right after random.seed(seed). -/
def randSeed (seed : Nat) : Nat := seed % 2 ^ 64

/-- random.randint(lo, hi): inclusive range draw. -/
def randintR (lo hi : Int) (s : Nat) : Int × Nat :=
  let s' := randNext s
  (lo + Int.ofNat (s' % (hi - lo + 1).toNat), s')

/-- random.choice over a character list. -/
def choiceCharR (l : List Char) (s : Nat) : Char × Nat :=
  let s' := randNext s
  (l.getD (s' % l.length) ' ', s')

/-- random.choice over a string list. -/
def choiceStrR (l : List (List Char)) (s : Nat) : List Char × Nat :=
  let s' := randNext s
  (l.getD (s' % l.length) [], s')

/-- random.choice([True, False]). -/
def choiceBoolR (s : Nat) : Bool × Nat :=
  let s' := randNext s
  (s' % 2 = 0, s')

/-- A list comprehension of randint draws. -/
def randintsR : Nat → Int → Int → Nat → List Int × Nat
  | 0, _, _, s => ([], s)
  | k + 1, lo, hi, s =>
    let (x, s') := randintR lo hi s
    let (xs, s'') := randintsR k lo hi s'
    (x :: xs, s'')

/-- random.choices(population, k): k draws with replacement. -/
def choicesCharR : Nat → List Char → Nat → List Char × Nat
  | 0, _, s => ([], s)
  | k + 1, l, s =>
    let (c, s') := choiceCharR l s
    let (cs, s'') := choicesCharR k l s'
    (c :: cs, s'')

/-- random.sample(pool, k): k draws without replacement, concretely as
repeated index selection with removal. -/
def sampleR : Nat → List (List Char) → Nat → List (List Char) × Nat
  | 0, _, s => ([], s)
  | k + 1, pool, s =>
    if pool.isEmpty then ([], s)
    else
      let s' := randNext s
      let idx := s' % pool.length
      let (rest, s'') := sampleR k (pool.eraseIdx idx) s'
      (pool.getD idx [] :: rest, s'')

/-- CommutativityTemplate.generate: two operands in the difficulty
range, an operator among plus and times, and the swapped-order
question. -/
def commutativity_generateR (difficulty : ProblemDifficulty)
    (mapper : Option MapperState) (s : Nat) : Problem × Nat :=
  let (a, s1) :=
    match difficulty with
    | .EASY => randintR 1 10 s
    | .MEDIUM => randintR 10 50 s
    | .HARD => randintR 50 200 s
  let (b, s2) :=
    match difficulty with
    | .EASY => randintR 1 10 s1
    | .MEDIUM => randintR 10 50 s1
    | .HARD => randintR 50 200 s1
  let (op, s3) := choiceCharR ['+', '*'] s2
  let ans := if op = '+' then a + b else a * b
  let std_q :=
    strL "If " ++ intStr a ++ ' ' :: op :: ' ' :: intStr b ++
    strL " = C, then " ++ intStr b ++ ' ' :: op :: ' ' :: intStr a ++ strL " = ?"
  let novel_q :=
    match mapper with
    | some sm => translate_expression sm std_q
    | none => std_q
  ({ question := std_q, answer := intStr ans, principle := .COMMUTATIVITY,
     difficulty := difficulty, requires_reasoning := true,
     standard_text := std_q, novel_text := novel_q,
     metadata := .pairOp a b op }, s3)

/-- AssociativityTemplate.generate. -/
def associativity_generateR (difficulty : ProblemDifficulty)
    (mapper : Option MapperState) (s : Nat) : Problem × Nat :=
  let (a, s1) :=
    match difficulty with
    | .EASY => randintR 1 10 s
    | .MEDIUM => randintR 10 30 s
    | .HARD => randintR 30 100 s
  let (b, s2) :=
    match difficulty with
    | .EASY => randintR 1 10 s1
    | .MEDIUM => randintR 10 30 s1
    | .HARD => randintR 30 100 s1
  let (c, s3) :=
    match difficulty with
    | .EASY => randintR 1 10 s2
    | .MEDIUM => randintR 10 30 s2
    | .HARD => randintR 30 100 s2
  let (op, s4) := choiceCharR ['+', '*'] s3
  let answer := if op = '+' then a + b + c else a * b * c
  let std_q :=
    strL "(" ++ intStr a ++ ' ' :: op :: ' ' :: intStr b ++ strL ") " ++
    op :: ' ' :: intStr c ++ strL " = ?"
  let novel_q :=
    match mapper with
    | some sm => translate_expression sm std_q
    | none => std_q
  ({ question := std_q, answer := intStr answer, principle := .ASSOCIATIVITY,
     difficulty := difficulty, requires_reasoning := true,
     standard_text := std_q, novel_text := novel_q,
     metadata := .tripleOp a b c op }, s4)

/-- DistributivityTemplate.generate. -/
def distributivity_generateR (difficulty : ProblemDifficulty)
    (mapper : Option MapperState) (s : Nat) : Problem × Nat :=
  let (a, s1) :=
    match difficulty with
    | .EASY => randintR 2 5 s
    | .MEDIUM => randintR 2 10 s
    | .HARD => randintR 5 20 s
  let (b, s2) :=
    match difficulty with
    | .EASY => randintR 1 10 s1
    | .MEDIUM => randintR 5 20 s1
    | .HARD => randintR 10 50 s1
  let (c, s3) :=
    match difficulty with
    | .EASY => randintR 1 10 s2
    | .MEDIUM => randintR 5 20 s2
    | .HARD => randintR 10 50 s2
  let answer := a * (b + c)
  let std_q :=
    intStr a ++ strL " * (" ++ intStr b ++ strL " + " ++ intStr c ++ strL ") = ?"
  let novel_q :=
    match mapper with
    | some sm => translate_expression sm std_q
    | none => std_q
  ({ question := std_q, answer := intStr answer, principle := .DISTRIBUTIVITY,
     difficulty := difficulty, requires_reasoning := true,
     standard_text := std_q, novel_text := novel_q,
     metadata := .triple a b c }, s3)

/-- BasicArithmeticTemplate.generate, including the easy-division
resampling that forces an exact quotient, and floor division for the
division answer. -/
def basic_arithmetic_generateR (difficulty : ProblemDifficulty)
    (mapper : Option MapperState) (s : Nat) : Problem × Nat :=
  let (a0, s1) :=
    match difficulty with
    | .EASY => randintR 1 20 s
    | .MEDIUM => randintR 10 100 s
    | .HARD => randintR 50 500 s
  let (b0, s2) :=
    match difficulty with
    | .EASY => randintR 1 20 s1
    | .MEDIUM => randintR 10 100 s1
    | .HARD => randintR 50 500 s1
  let (op, s3) := choiceCharR ['+', '-', '*', '/'] s2
  let (a, b, answer, s4) :=
    if op = '+' then (a0, b0, a0 + b0, s3)
    else if op = '-' then (a0, b0, a0 - b0, s3)
    else if op = '*' then (a0, b0, a0 * b0, s3)
    else
      if difficulty = .EASY then
        let (b1, s3a) := randintR 1 10 s3
        let (m1, s3b) := randintR 1 10 s3a
        (b1 * m1, b1, (b1 * m1).fdiv b1, s3b)
      else (a0, b0, a0.fdiv b0, s3)
  let std_q := intStr a ++ ' ' :: op :: ' ' :: intStr b ++ strL " = ?"
  let novel_q :=
    match mapper with
    | some sm => translate_expression sm std_q
    | none => std_q
  ({ question := std_q, answer := intStr answer, principle := .BASIC_ARITHMETIC,
     difficulty := difficulty, requires_reasoning := false,
     standard_text := std_q, novel_text := novel_q,
     metadata := .pairOp a b op }, s4)

/-- IdentityTemplate.generate. -/
def identity_generateR (difficulty : ProblemDifficulty)
    (mapper : Option MapperState) (s : Nat) : Problem × Nat :=
  let (a, s1) := randintR 1 100 s
  let (identity_type, s2) := choiceStrR [strL "additive", strL "multiplicative"] s1
  let op : Char := if identity_type = strL "additive" then '+' else '*'
  let idElem : Int := if identity_type = strL "additive" then 0 else 1
  let (front, s3) := choiceBoolR s2
  let std_q :=
    if front then intStr a ++ ' ' :: op :: ' ' :: intStr idElem ++ strL " = ?"
    else intStr idElem ++ ' ' :: op :: ' ' :: intStr a ++ strL " = ?"
  let novel_q :=
    match mapper with
    | some sm => translate_expression sm std_q
    | none => std_q
  ({ question := std_q, answer := intStr a, principle := .IDENTITY,
     difficulty := difficulty, requires_reasoning := true,
     standard_text := std_q, novel_text := novel_q,
     metadata := .identityMeta a identity_type }, s3)

/-- MultiStepTemplate.generate: sample the operands and operators, then
build the problem through the shared loop. -/
def multi_step_generateR (difficulty : ProblemDifficulty)
    (mapper : Option MapperState) (s : Nat) : Problem × Nat :=
  let num_ops := multiStepNumOps difficulty
  let (numbers, s1) :=
    if difficulty = .MEDIUM then randintsR (num_ops + 1) 1 20 s
    else randintsR (num_ops + 1) 5 50 s
  let (operators, s2) := choicesCharR num_ops ['+', '-', '*'] s1
  (multiStep_generate difficulty numbers operators mapper, s2)

/-- Registered template classes. -/
inductive TemplateTag where
  | commutativityT
  | associativityT
  | distributivityT
  | basic_arithmeticT
  | multi_stepT
  | identityT
deriving DecidableEq

/-- TEMPLATE_MAP: the enum-keyed template dispatch.  The inverse and
transitivity principles have no registered template. -/
def TEMPLATE_MAP : MathematicalPrinciple → Option TemplateTag
  | .COMMUTATIVITY => some .commutativityT
  | .ASSOCIATIVITY => some .associativityT
  | .DISTRIBUTIVITY => some .distributivityT
  | .BASIC_ARITHMETIC => some .basic_arithmeticT
  | .MULTI_STEP => some .multi_stepT
  | .IDENTITY => some .identityT
  | .INVERSE => none
  | .TRANSITIVITY => none

/-- Instantiate and run the template class found for a principle. -/
def dispatchTemplate (tag : TemplateTag) (difficulty : ProblemDifficulty)
    (mapper : Option MapperState) (s : Nat) : Problem × Nat :=
  match tag with
  | .commutativityT => commutativity_generateR difficulty mapper s
  | .associativityT => associativity_generateR difficulty mapper s
  | .distributivityT => distributivity_generateR difficulty mapper s
  | .basic_arithmeticT => basic_arithmetic_generateR difficulty mapper s
  | .multi_stepT => multi_step_generateR difficulty mapper s
  | .identityT => identity_generateR difficulty mapper s

/-- ProblemGenerator.generate_problem: look the principle up in the
template map, raise the no-template error when absent, otherwise
generate through the template. -/
def generate_problem (principle : MathematicalPrinciple)
    (difficulty : ProblemDifficulty) (mapper : Option MapperState) (s : Nat) :
    Except (List Char) (Problem × Nat) :=
  match TEMPLATE_MAP principle with
  | none => .error (strL "No template found for principle: " ++ principleRepr principle)
  | some tag => .ok (dispatchTemplate tag difficulty mapper s)

/-- One call of a generator/mapper session: either generate a problem
for a principle and difficulty, or create a category mapping for a token
list and optional pool. -/
inductive GenCall where
  | problem (principle : MathematicalPrinciple) (difficulty : ProblemDifficulty)
  | mapping (cat : MapCat) (tokens : List (List Char)) (pool : Option (List (List Char)))
deriving DecidableEq

/-- Combined state of the seeded random stream and the mapper. -/
structure RunState where
  rand : Nat
  mapper : MapperState
deriving DecidableEq

/-- Observable outcome of one call: the generated problem with its
operands, operators and answer, the returned token-to-glyph dict of a
mapping call, or a raised error. -/
inductive CallResult where
  | problem (p : Problem)
  | mapping (returned : List (List Char × List Char))
  | error (msg : List Char)
deriving DecidableEq

/-- Execute one call against the session state. -/
def runCall (st : RunState) (c : GenCall) : CallResult × RunState :=
  match c with
  | .problem principle difficulty =>
    match generate_problem principle difficulty (some st.mapper) st.rand with
    | .error e => (.error e, st)
    | .ok (p, s') => (.problem p, { st with rand := s' })
  | .mapping cat tokens pool =>
    let fullPool := pool.getD (defaultPool cat)
    let avail := availableIn fullPool st.mapper.used_symbols
    if avail.length < tokens.length then
      (.error (strL "Not enough unique symbols"), st)
    else
      let (sel, s') := sampleR tokens.length avail st.rand
      let m' := create_mapping_core st.mapper tokens sel
      (.mapping (tokens.map (fun t => (t, (dictGet t m'.mappings).getD []))),
       { rand := s', mapper := m' })

/-- Execute a call sequence, stopping at the first raised error as the
source would. -/
def runSequence (st : RunState) : List GenCall → List CallResult
  | [] => []
  | c :: rest =>
    match runCall st c with
    | (.error e, _) => [.error e]
    | (r, st') => r :: runSequence st' rest

/-- Session state after constructing ProblemGenerator and SymbolMapper
with the given seed: both constructors reseed the same global random
stream, leaving it in the seeded state. -/
def mkRunState (seed : Nat) : RunState :=
  { rand := randSeed seed, mapper := mapperInit }

theorem insertLenDesc_perm (x : List Char × List Char)
    (l : List (List Char × List Char)) : (insertLenDesc x l).Perm (x :: l) := by
  induction l with
  | nil => exact List.Perm.refl _
  | cons y ys ih =>
    rw [insertLenDesc]
    by_cases h : y.1.length ≤ x.1.length
    · simp [h]
    · simp only [h, if_false]
      exact (ih.cons y).trans (List.Perm.swap x y ys)

theorem sortLenDesc_perm (l : List (List Char × List Char)) :
    (sortLenDesc l).Perm l := by
  induction l with
  | nil => exact List.Perm.refl _
  | cons x xs ih => exact (insertLenDesc_perm x (sortLenDesc xs)).trans (ih.cons x)

theorem mem_sortLenDesc {a : List Char × List Char}
    {l : List (List Char × List Char)} : a ∈ sortLenDesc l ↔ a ∈ l :=
  (sortLenDesc_perm l).mem_iff

theorem isPrefixOf_ex {l1 l2 : List Char} (h : l1.isPrefixOf l2) :
    ∃ t, l2 = l1 ++ t := by
  induction l1 generalizing l2 with
  | nil => exact ⟨l2, rfl⟩
  | cons a as ih =>
    cases l2 with
    | nil => simp [List.isPrefixOf] at h
    | cons b bs =>
      simp only [List.isPrefixOf, Bool.and_eq_true, beq_iff_eq] at h
      obtain ⟨t, ht⟩ := ih h.2
      exact ⟨t, by simp [h.1, ht]⟩

theorem subst_eq_of_mem {rs : List (List Char × List Char)} {g : Char}
    {t : List Char} (hnd : (keyChars rs).Nodup) (hmem : ([g], t) ∈ rs) :
    subst rs g = t := by
  induction rs with
  | nil => simp at hmem
  | cons p rest ih =>
    rcases List.mem_cons.mp hmem with h | h
    · subst h
      simp [subst, List.find?]
    · have hnd' : (keyChars rest).Nodup := by
        have : keyChars (p :: rest) = p.1 ++ keyChars rest := by
          simp [keyChars]
        rw [this] at hnd
        exact hnd.of_append_right
      by_cases hp : p.1 = [g]
      · exfalso
        have hg_head : g ∈ p.1 := by simp [hp]
        have hg_rest : g ∈ keyChars rest :=
          List.mem_flatMap.mpr ⟨([g], t), h, by simp⟩
        have : keyChars (p :: rest) = p.1 ++ keyChars rest := by simp [keyChars]
        rw [this] at hnd
        exact (List.disjoint_of_nodup_append hnd) hg_head hg_rest
      · have : subst (p :: rest) g = subst rest g := by
          simp [subst, List.find?, hp]
        rw [this]
        exact ih hnd' h

theorem subst_eq_self {rs : List (List Char × List Char)} {c : Char}
    (hc : c ∉ keyChars rs) : subst rs c = [c] := by
  induction rs with
  | nil => simp [subst, List.find?]
  | cons p rest ih =>
    have hc_head : c ∉ p.1 := fun h =>
      hc (List.mem_flatMap.mpr ⟨p, List.mem_cons_self p rest, h⟩)
    have hc_rest : c ∉ keyChars rest := fun h => by
      apply hc
      simp only [keyChars, List.mem_flatMap] at h ⊢
      obtain ⟨q, hq, hqc⟩ := h
      exact ⟨q, List.mem_cons_of_mem p hq, hqc⟩
    have hp : p.1 ≠ [c] := by
      intro h; exact hc_head (by simp [h])
    have : subst (p :: rest) c = subst rest c := by
      simp [subst, List.find?, hp]
    rw [this]
    exact ih hc_rest

theorem unglyph_append (rs : List (List Char × List Char)) (a b : List Char) :
    unglyph rs (a ++ b) = unglyph rs a ++ unglyph rs b := by
  simp [unglyph]

theorem unglyph_id {rs : List (List Char × List Char)} {s : List Char}
    (h : ∀ c ∈ s, subst rs c = [c]) : unglyph rs s = s := by
  induction s with
  | nil => simp [unglyph]
  | cons c cs ih =>
    have : unglyph rs (c :: cs) = subst rs c ++ unglyph rs cs := by
      simp [unglyph]
    rw [this, h c (List.mem_cons_self c cs),
      ih (fun x hx => h x (List.mem_cons_of_mem c hx))]
    rfl

theorem replaceList_single (g : Char) (rep : List Char) (s : List Char) :
    replaceList [g] rep s = s.flatMap (fun c => if c = g then rep else [c]) := by
  induction s with
  | nil => simp [replaceList]
  | cons c cs ih =>
    rw [replaceList]
    by_cases hc : c = g
    · subst hc
      have hpre : [c].isPrefixOf (c :: cs) = true := by
        simp [List.isPrefixOf]
      simp [hpre, ih]
    · have hpre : [g].isPrefixOf (c :: cs) = false := by
        simp [List.isPrefixOf]
        intro h
        exact absurd h.symm hc
      simp [hpre, hc, ih]

theorem unglyph_replace {rs : List (List Char × List Char)} {t : List Char}
    {g : Char} (ht : t ≠ []) (hg : subst rs g = t)
    (hfree : ∀ c ∈ t, subst rs c = [c]) :
    ∀ n (s : List Char), s.length ≤ n →
      unglyph rs (replaceList t [g] s) = unglyph rs s := by
  intro n
  induction n with
  | zero =>
    intro s hs
    have : s = [] := List.length_eq_zero.mp (Nat.le_zero.mp hs)
    subst this
    simp [replaceList]
  | succ n ih =>
    intro s hs
    cases s with
    | nil => simp [replaceList]
    | cons c cs =>
      rw [replaceList]
      by_cases hcond : t ≠ [] ∧ t.isPrefixOf (c :: cs)
      · rw [dif_pos hcond]
        obtain ⟨u, hu⟩ := isPrefixOf_ex hcond.2
        have hdrop : (c :: cs).drop t.length = u := by
          rw [hu, List.drop_left]
        rw [hdrop, unglyph_append]
        have hlt : u.length ≤ n := by
          have h1 : (c :: cs).length = t.length + u.length := by
            rw [hu, List.length_append]
          have h2 : 0 < t.length := List.length_pos.mpr ht
          simp only [List.length_cons] at h1 hs
          omega
        rw [ih u hlt, hu, unglyph_append, unglyph_id hfree]
        have : unglyph rs [g] = t := by
          simp [unglyph, hg]
        rw [this]
      · rw [dif_neg hcond]
        have : unglyph rs (c :: replaceList t [g] cs) =
            subst rs c ++ unglyph rs (replaceList t [g] cs) := by
          simp [unglyph]
        rw [this]
        have hcs : cs.length ≤ n := by
          simp only [List.length_cons] at hs
          omega
        rw [ih cs hcs]
        simp [unglyph]

theorem unglyph_fold {rs : List (List Char × List Char)}
    (pairs : List (List Char × List Char))
    (h : ∀ p ∈ pairs, p.1 ≠ [] ∧ (∃ g, p.2 = [g] ∧ subst rs g = p.1) ∧
          ∀ c ∈ p.1, subst rs c = [c]) :
    ∀ s, unglyph rs (pairs.foldl (fun r p => replaceList p.1 p.2 r) s) =
      unglyph rs s := by
  induction pairs with
  | nil => intro s; simp
  | cons p rest ih =>
    intro s
    rw [List.foldl_cons]
    obtain ⟨hne, ⟨g, hg2, hgsub⟩, hfree⟩ := h p (List.mem_cons_self p rest)
    rw [ih (fun q hq => h q (List.mem_cons_of_mem p hq))]
    rw [hg2]
    exact unglyph_replace hne hgsub hfree s.length s le_rfl

theorem fold_reverse_eq (rs : List (List Char × List Char))
    (hsing : ∀ p ∈ rs, ∃ c, p.1 = [c])
    (hnd : (keyChars rs).Nodup)
    (hfree : ∀ p ∈ rs, ∀ c ∈ p.2, c ∉ keyChars rs) :
    ∀ s, rs.foldl (fun r p => replaceList p.1 p.2 r) s = unglyph rs s := by
  induction rs with
  | nil =>
    intro s
    have : subst ([] : List (List Char × List Char)) = fun c => [c] := rfl
    simp [unglyph, this]
  | cons p rest ih =>
    intro s
    obtain ⟨g, hg⟩ := hsing p (List.mem_cons_self p rest)
    have hkc : keyChars (p :: rest) = p.1 ++ keyChars rest := by simp [keyChars]
    have hnd_rest : (keyChars rest).Nodup := by
      rw [hkc] at hnd; exact hnd.of_append_right
    have hg_not_rest : g ∉ keyChars rest := by
      rw [hkc, hg] at hnd
      intro hmem
      exact (List.disjoint_of_nodup_append hnd) (by simp) hmem
    rw [List.foldl_cons]
    rw [ih (fun q hq => hsing q (List.mem_cons_of_mem p hq)) hnd_rest
      (fun q hq c hc => fun hmem => hfree q (List.mem_cons_of_mem p hq) c hc
        (by rw [hkc]; exact List.mem_append_right _ hmem))]
    rw [hg, replaceList_single]
    simp only [unglyph, List.flatMap_assoc]
    apply List.flatMap_congr  -- pointwise equality of the two substitutions
    intro c _
    by_cases hc : c = g
    · subst hc
      have h1 : subst (p :: rest) c = p.2 := by
        simp [subst, List.find?, hg]
      rw [if_pos rfl, h1]
      have : ∀ x ∈ p.2, subst rest x = [x] := by
        intro x hx
        apply subst_eq_self
        intro hmem
        exact hfree p (List.mem_cons_self p rest) x hx
          (by rw [hkc]; exact List.mem_append_right _ hmem)
      exact unglyph_id this
    · rw [if_neg hc]
      have h1 : subst (p :: rest) c = subst rest c := by
        have : p.1 ≠ [c] := by rw [hg]; intro h; injection h with h1; exact hc h1.symm
        simp [subst, List.find?, this]
      rw [h1]
      simp [unglyph]

theorem keyChars_swap (l : List (List Char × List Char)) :
    keyChars (l.map (fun p => (p.2, p.1))) = glyphChars l := by
  induction l with
  | nil => rfl
  | cons p rest ih => simp [keyChars, glyphChars] at ih ⊢; exact ih

/-- C1.  Round-trip property: on a SymbolMapper whose tables satisfy the
invariants produced by the create mapping calls (the reverse dict is the
entrywise swap of the forward dict, every glyph is a single character,
glyph characters are pairwise distinct, and no standard token contains a
glyph character), reverse_translate undoes translate_expression on every
expression that contains no glyph character — in particular on every
expression built only from mapped standard tokens. -/
theorem translate_roundtrip (m : MapperState)
    (hrev : m.reverse_mappings = m.mappings.map (fun p => (p.2, p.1)))
    (hne : ∀ p ∈ m.mappings, p.1 ≠ [])
    (hsing1 : ∀ p ∈ m.mappings, p.2.length = 1)
    (hnd : (glyphChars m.mappings).Nodup)
    (htok : ∀ p ∈ m.mappings, ∀ c ∈ p.1, c ∉ glyphChars m.mappings)
    (expr : List Char)
    (hexpr : ∀ c ∈ expr, c ∉ glyphChars m.mappings) :
    reverse_translate m (translate_expression m expr) = expr := by
  have hsing : ∀ p ∈ m.mappings, ∃ c, p.2 = [c] := fun p hp =>
    List.length_eq_one.mp (hsing1 p hp)
  have hkc_perm : (keyChars (sortLenDesc m.reverse_mappings)).Perm
      (glyphChars m.mappings) := by
    have h1 : (keyChars (sortLenDesc m.reverse_mappings)).Perm
        (keyChars m.reverse_mappings) :=
      (sortLenDesc_perm m.reverse_mappings).flatMap_right _
    have h2 : keyChars m.reverse_mappings = glyphChars m.mappings := by
      rw [hrev, keyChars_swap]
    rw [h2] at h1
    exact h1
  have hmem_kc : ∀ c, c ∈ keyChars (sortLenDesc m.reverse_mappings) ↔
      c ∈ glyphChars m.mappings := fun c => hkc_perm.mem_iff
  have hnd_kc : (keyChars (sortLenDesc m.reverse_mappings)).Nodup :=
    hkc_perm.nodup_iff.mpr hnd
  have hmem_rs : ∀ p, p ∈ sortLenDesc m.reverse_mappings ↔
      p ∈ m.mappings.map (fun q => (q.2, q.1)) := by
    intro p; rw [mem_sortLenDesc, hrev]
  -- the reverse sweep is character-level substitution through the tables
  have hR : ∀ s, reverse_translate m s =
      unglyph (sortLenDesc m.reverse_mappings) s := by
    intro s
    apply fold_reverse_eq
    · intro p hp
      obtain ⟨q, hq, hqp⟩ := List.mem_map.mp ((hmem_rs p).mp hp)
      obtain ⟨c, hc⟩ := hsing q hq
      exact ⟨c, by rw [← hqp]; simpa using hc⟩
    · exact hnd_kc
    · intro p hp c hc
      obtain ⟨q, hq, hqp⟩ := List.mem_map.mp ((hmem_rs p).mp hp)
      rw [hmem_kc]
      have : c ∈ q.1 := by rw [← hqp] at hc; simpa using hc
      exact htok q hq c this
  -- the forward sweep is invisible to that substitution
  have hF : unglyph (sortLenDesc m.reverse_mappings)
      (translate_expression m expr) =
      unglyph (sortLenDesc m.reverse_mappings) expr := by
    have : translate_expression m expr =
        (sortLenDesc m.mappings).foldl (fun r p => replaceList p.1 p.2 r) expr := rfl
    rw [this]
    apply unglyph_fold
    intro p hp
    have hpm : p ∈ m.mappings := mem_sortLenDesc.mp hp
    obtain ⟨c, hc⟩ := hsing p hpm
    refine ⟨hne p hpm, ⟨c, hc, ?_⟩, ?_⟩
    · apply subst_eq_of_mem hnd_kc
      rw [hmem_rs]
      exact List.mem_map.mpr ⟨p, hpm, by rw [hc]⟩
    · intro x hx
      apply subst_eq_self
      rw [hmem_kc]
      exact htok p hpm x hx
  rw [hR, hF]
  apply unglyph_id
  intro c hc
  apply subst_eq_self
  rw [hmem_kc]
  exact hexpr c hc

/-- Witness for C1 at a concrete mapper and expression. -/
theorem translate_roundtrip_witness :
    (witnessMapperC1.reverse_mappings =
       witnessMapperC1.mappings.map (fun p => (p.2, p.1))) ∧
    reverse_translate witnessMapperC1
      (translate_expression witnessMapperC1 (strL "12+12")) = strL "12+12" :=
  ⟨by decide,
   translate_roundtrip witnessMapperC1 (by decide) (by decide) (by decide)
     (by decide) (by decide) (strL "12+12") (by decide)⟩

theorem dictGet_eq_none_iff {k : List Char} {l : List (List Char × List Char)} :
    dictGet k l = none ↔ k ∉ l.map Prod.fst := by
  induction l with
  | nil => simp [dictGet]
  | cons p rest ih =>
    by_cases h : p.1 = k
    · simp [dictGet, h]
    · simp [dictGet, h, ih, Ne.symm h]

theorem dictSet_fresh {k : List Char} {l : List (List Char × List Char)}
    (v : List Char) (h : k ∉ l.map Prod.fst) : dictSet k v l = l ++ [(k, v)] := by
  induction l with
  | nil => rfl
  | cons p rest ih =>
    obtain ⟨k0, v0⟩ := p
    simp only [List.map_cons, List.mem_cons] at h
    push_neg at h
    simp [dictSet, Ne.symm h.1, ih h.2]

theorem setAdd_fresh {x : List Char} {s : List (List Char)} (h : x ∉ s) :
    setAdd x s = s ++ [x] := by
  simp [setAdd, h]

theorem create_core_append :
    ∀ (tokens selected : List (List Char)) (m : MapperState),
      tokens.length = selected.length →
      tokens.Nodup →
      (∀ t ∈ tokens, t ∉ m.mappings.map Prod.fst) →
      selected.Nodup →
      (∀ g ∈ selected, g ∉ m.used_symbols) →
      (∀ g ∈ selected, g ∉ m.reverse_mappings.map Prod.fst) →
      create_mapping_core m tokens selected =
        { mappings := m.mappings ++ tokens.zip selected,
          reverse_mappings :=
            m.reverse_mappings ++ (tokens.zip selected).map (fun p => (p.2, p.1)),
          used_symbols := m.used_symbols ++ selected } := by
  intro tokens
  induction tokens with
  | nil =>
    intro selected m hlen _ _ _ _ _
    have : selected = [] := List.length_eq_zero.mp hlen.symm
    subst this
    simp [create_mapping_core]
  | cons t ts ih =>
    intro selected m hlen hnd htf hsnd hsu hsr
    cases selected with
    | nil => simp at hlen
    | cons g gs =>
      have ht : t ∉ m.mappings.map Prod.fst := htf t (List.mem_cons_self t ts)
      have hgu : g ∉ m.used_symbols := hsu g (List.mem_cons_self g gs)
      have hgr : g ∉ m.reverse_mappings.map Prod.fst := hsr g (List.mem_cons_self g gs)
      have hstep : create_mapping_core m (t :: ts) (g :: gs) =
          create_mapping_core
            { mappings := m.mappings ++ [(t, g)],
              reverse_mappings := m.reverse_mappings ++ [(g, t)],
              used_symbols := m.used_symbols ++ [g] } ts gs := by
        simp only [create_mapping_core, List.zip_cons_cons, List.foldl_cons]
        rw [dictSet_fresh g ht, dictSet_fresh t hgr, setAdd_fresh hgu]
      rw [hstep]
      have hlen' : ts.length = gs.length := by simpa using hlen
      rw [ih gs _ hlen' hnd.of_cons ?_ hsnd.of_cons ?_ ?_]
      · simp
      · intro x hx
        simp only [List.map_append, List.mem_append, List.map_cons]
        push_neg
        constructor
        · exact htf x (List.mem_cons_of_mem t hx)
        · have : x ≠ t := fun he => (List.nodup_cons.mp hnd).1 (he ▸ hx)
          simp [this]
      · intro x hx
        simp only [List.mem_append]
        push_neg
        constructor
        · exact hsu x (List.mem_cons_of_mem g hx)
        · have : x ≠ g := fun he => (List.nodup_cons.mp hsnd).1 (he ▸ hx)
          simp [this]
      · intro x hx
        simp only [List.map_append, List.mem_append, List.map_cons]
        push_neg
        constructor
        · exact hsr x (List.mem_cons_of_mem g hx)
        · have : x ≠ g := fun he => (List.nodup_cons.mp hsnd).1 (he ▸ hx)
          simp [this]

theorem applyCall_inv {m : MapperState} {c : MapCall} (hInv : MapperInv m)
    (hv : callValid m c = true) (hf : callFresh m c = true) :
    MapperInv (applyCall m c) ∧
      (applyCall m c).mappings = m.mappings ++ c.tokens.zip c.selected := by
  obtain ⟨hrev, hknd, hvnd, hused⟩ := hInv
  simp only [callValid, Bool.and_eq_true, beq_iff_eq, decide_eq_true_eq] at hv
  simp only [callFresh, Bool.and_eq_true, decide_eq_true_eq] at hf
  obtain ⟨⟨hlen, hsnd⟩, hsel⟩ := hv
  obtain ⟨htnd, htfresh⟩ := hf
  have hsu : ∀ g ∈ c.selected, g ∉ m.used_symbols := by
    intro g hg
    have := hsel g hg
    simp only [availableIn, List.mem_filter, decide_eq_true_eq] at this
    exact this.2
  have hrevkeys : m.reverse_mappings.map Prod.fst = m.mappings.map Prod.snd := by
    rw [hrev, List.map_map]
    rfl
  have hsr : ∀ g ∈ c.selected, g ∉ m.reverse_mappings.map Prod.fst := by
    intro g hg
    rw [hrevkeys, ← hused]
    exact hsu g hg
  have htf : ∀ t ∈ c.tokens, t ∉ m.mappings.map Prod.fst := by
    intro t ht
    exact dictGet_eq_none_iff.mp (htfresh t ht)
  have hcore := create_core_append c.tokens c.selected m hlen.symm htnd htf hsnd hsu hsr
  have hzfst : (c.tokens.zip c.selected).map Prod.fst = c.tokens :=
    List.map_fst_zip _ _ (le_of_eq hlen.symm)
  have hzsnd : (c.tokens.zip c.selected).map Prod.snd = c.selected :=
    List.map_snd_zip _ _ (le_of_eq hlen)
  constructor
  · rw [applyCall, hcore]
    refine ⟨?_, ?_, ?_, ?_⟩
    · simp only [List.map_append, hrev]
    · simp only [List.map_append, hzfst]
      refine hknd.append htnd ?_
      rw [List.disjoint_left]
      intro a ha
      by_contra hmem
      exact htf a hmem ha
    · simp only [List.map_append, hzsnd]
      refine hvnd.append hsnd ?_
      rw [List.disjoint_left]
      intro a ha
      by_contra hmem
      rw [← hused] at ha
      exact hsu a hmem ha
    · simp only [List.map_append, hzsnd, hused]
  · rw [applyCall, hcore]

theorem runMapCalls_inv :
    ∀ (calls : List MapCall) (m : MapperState), MapperInv m →
      validCalls m calls = true → freshCalls m calls = true →
      MapperInv (runMapCalls m calls) ∧
        ∃ suffix, (runMapCalls m calls).mappings = m.mappings ++ suffix := by
  intro calls
  induction calls with
  | nil =>
    intro m hInv _ _
    exact ⟨hInv, [], by simp [runMapCalls]⟩
  | cons c rest ih =>
    intro m hInv hv hf
    simp only [validCalls, Bool.and_eq_true] at hv
    simp only [freshCalls, Bool.and_eq_true] at hf
    obtain ⟨hInv', happ⟩ := applyCall_inv hInv hv.1 hf.1
    obtain ⟨hInv'', suffix, hsuf⟩ := ih (applyCall m c) hInv' hv.2 hf.2
    refine ⟨by simpa [runMapCalls] using hInv'', c.tokens.zip c.selected ++ suffix, ?_⟩
    have : runMapCalls m (c :: rest) = runMapCalls (applyCall m c) rest := by
      simp [runMapCalls]
    rw [this, hsuf, happ, List.append_assoc]

theorem validCalls_append (l1 l2 : List MapCall) :
    ∀ m, validCalls m (l1 ++ l2) =
      (validCalls m l1 && validCalls (runMapCalls m l1) l2) := by
  induction l1 with
  | nil => intro m; simp [validCalls, runMapCalls]
  | cons c rest ih =>
    intro m
    simp [validCalls, runMapCalls, ih, Bool.and_assoc]

theorem freshCalls_append (l1 l2 : List MapCall) :
    ∀ m, freshCalls m (l1 ++ l2) =
      (freshCalls m l1 && freshCalls (runMapCalls m l1) l2) := by
  induction l1 with
  | nil => intro m; simp [freshCalls, runMapCalls]
  | cons c rest ih =>
    intro m
    simp [freshCalls, runMapCalls, ih, Bool.and_assoc]

theorem mapperInit_inv : MapperInv mapperInit := by
  refine ⟨rfl, ?_, ?_, rfl⟩ <;> simp [mapperInit]

/-- C2 (amended).  For every sequence of create mapping calls that
succeeds AND never submits an already-mapped or repeated standard token,
the final state satisfies the spec invariant — assigned glyphs pairwise
distinct across all categories, forward and reverse tables entrywise
inverse of each other — and no assignment is ever overwritten: after any
prefix of the sequence, the forward table so far is preserved verbatim as
an initial segment of every later forward table.  The freshness
precondition is necessary: see the counterexample, where re-mapping an
already-mapped token succeeds and silently overwrites. -/
theorem mapper_tables_inverse (calls : List MapCall)
    (hv : validCalls mapperInit calls = true)
    (hf : freshCalls mapperInit calls = true) :
    MapperInv (runMapCalls mapperInit calls) ∧
      ∀ n, ∃ suffix, (runMapCalls mapperInit calls).mappings =
        (runMapCalls mapperInit (calls.take n)).mappings ++ suffix := by
  refine ⟨(runMapCalls_inv calls mapperInit mapperInit_inv hv hf).1, ?_⟩
  intro n
  have hsplit : calls = calls.take n ++ calls.drop n := (List.take_append_drop n calls).symm
  have hv2 : validCalls (runMapCalls mapperInit (calls.take n)) (calls.drop n) = true := by
    have := validCalls_append (calls.take n) (calls.drop n) mapperInit
    rw [← hsplit] at this
    rw [hv] at this
    exact (Bool.and_eq_true _ _ |>.mp this.symm).2
  have hf2 : freshCalls (runMapCalls mapperInit (calls.take n)) (calls.drop n) = true := by
    have := freshCalls_append (calls.take n) (calls.drop n) mapperInit
    rw [← hsplit] at this
    rw [hf] at this
    exact (Bool.and_eq_true _ _ |>.mp this.symm).2
  have hv1 : validCalls mapperInit (calls.take n) = true := by
    have := validCalls_append (calls.take n) (calls.drop n) mapperInit
    rw [← hsplit] at this
    rw [hv] at this
    exact (Bool.and_eq_true _ _ |>.mp this.symm).1
  have hf1 : freshCalls mapperInit (calls.take n) = true := by
    have := freshCalls_append (calls.take n) (calls.drop n) mapperInit
    rw [← hsplit] at this
    rw [hf] at this
    exact (Bool.and_eq_true _ _ |>.mp this.symm).1
  have hInv1 := (runMapCalls_inv (calls.take n) mapperInit mapperInit_inv hv1 hf1).1
  obtain ⟨suffix, hs⟩ :=
    (runMapCalls_inv (calls.drop n) (runMapCalls mapperInit (calls.take n)) hInv1 hv2 hf2).2
  refine ⟨suffix, ?_⟩
  have : runMapCalls mapperInit calls =
      runMapCalls (runMapCalls mapperInit (calls.take n)) (calls.drop n) := by
    rw [runMapCalls, runMapCalls, runMapCalls, ← List.foldl_append,
      List.take_append_drop]
  rw [this, hs]

/-- Witness for the amended C2 at a concrete one-call sequence. -/
theorem mapper_tables_inverse_witness :
    (validCalls mapperInit [witnessCallC2] = true ∧
       freshCalls mapperInit [witnessCallC2] = true) ∧
    (MapperInv (runMapCalls mapperInit [witnessCallC2]) ∧
      ∀ n, ∃ suffix, (runMapCalls mapperInit [witnessCallC2]).mappings =
        (runMapCalls mapperInit ([witnessCallC2].take n)).mappings ++ suffix) :=
  ⟨⟨by decide, by decide⟩, mapper_tables_inverse [witnessCallC2] (by decide) (by decide)⟩

/-- Counterexample to C2 as stated.  Both create mapping calls succeed
(the second resamples the already-mapped token 1), yet the first
assignment of token 1 is overwritten and the forward and reverse tables
are no longer inverses: the reverse table still sends the old glyph to
token 1 while the forward table sends token 1 to the new glyph. -/
theorem mapper_overwrite_cex :
    validCalls mapperInit [cexCallA, cexCallB] = true ∧
    (runMapCalls mapperInit [cexCallA]).mappings = [(strL "1", strL "∴")] ∧
    (runMapCalls mapperInit [cexCallA, cexCallB]).mappings = [(strL "1", strL "⊕")] ∧
    dictGet (strL "∴") (runMapCalls mapperInit [cexCallA, cexCallB]).reverse_mappings =
      some (strL "1") ∧
    dictGet (strL "1") (runMapCalls mapperInit [cexCallA, cexCallB]).mappings ≠
      some (strL "∴") ∧
    ¬ MapperInv (runMapCalls mapperInit [cexCallA, cexCallB]) := by
  refine ⟨by decide, by decide, by decide, by decide, by decide, ?_⟩
  intro h
  have h1 := h.1
  revert h1
  decide

theorem extract_symbols_acc (m : MapperState) :
    ∀ (expression : List Char) (acc : List Char) (c : Char),
      c ∈ acc ∨ (c ∈ expression ∧ (dictGet [c] m.reverse_mappings).isSome) →
      c ∈ expression.foldl
        (fun symbols ch =>
          if (dictGet [ch] m.reverse_mappings).isSome then
            if ch ∈ symbols then symbols else symbols ++ [ch]
          else symbols) acc := by
  intro expression
  induction expression with
  | nil =>
    intro acc c h
    rcases h with h | h
    · simpa using h
    · simp at h
  | cons ch rest ih =>
    intro acc c h
    rw [List.foldl_cons]
    rcases h with h | ⟨hmem, hsome⟩
    · apply ih
      left
      by_cases h1 : (dictGet [ch] m.reverse_mappings).isSome
      · by_cases h2 : ch ∈ acc
        · simpa [h1, h2] using h
        · simp only [h1, h2, if_true, if_false]
          exact List.mem_append_left _ h
      · simpa [h1] using h
    · rcases List.mem_cons.mp hmem with hcc | hcr
      · subst hcc
        apply ih
        left
        by_cases h2 : c ∈ acc
        · simp [hsome, h2]
        · simp only [hsome, h2, if_true, if_false]
          exact List.mem_append_right _ (by simp)
      · exact ih _ c (Or.inr ⟨hcr, hsome⟩)

theorem extract_symbols_mem {m : MapperState} {expression : List Char} {c : Char}
    (hc : c ∈ expression) (hs : (dictGet [c] m.reverse_mappings).isSome) :
    c ∈ extract_symbols_from_expression m expression :=
  extract_symbols_acc m expression [] c (Or.inr ⟨hc, hs⟩)

theorem get_mappings_acc (m : MapperState) :
    ∀ (symbols : List Char) (acc : List (List Char × List Char))
      (c : Char) (std : List Char),
      (std, [c]) ∈ acc ∨ (c ∈ symbols ∧ dictGet [c] m.reverse_mappings = some std) →
      (std, [c]) ∈ symbols.foldl
        (fun acc ch =>
          match dictGet [ch] m.reverse_mappings with
          | some standard => acc ++ [(standard, [ch])]
          | none => acc) acc := by
  intro symbols
  induction symbols with
  | nil =>
    intro acc c std h
    rcases h with h | h
    · simpa using h
    · simp at h
  | cons ch rest ih =>
    intro acc c std h
    rw [List.foldl_cons]
    rcases h with h | ⟨hmem, hget⟩
    · apply ih
      left
      cases hd : dictGet [ch] m.reverse_mappings with
      | some s => simp only [hd]; exact List.mem_append_left _ h
      | none => simpa [hd] using h
    · rcases List.mem_cons.mp hmem with hcc | hcr
      · subst hcc
        apply ih
        left
        simp only [hget]
        exact List.mem_append_right _ (by simp)
      · exact ih _ c std (Or.inr ⟨hcr, hget⟩)

theorem get_mappings_mem {m : MapperState} {symbols : List Char} {c : Char}
    {std : List Char} (hc : c ∈ symbols)
    (hget : dictGet [c] m.reverse_mappings = some std) :
    (std, [c]) ∈ get_mappings_for_symbols m symbols :=
  get_mappings_acc m symbols [] c std (Or.inr ⟨hc, hget⟩)

theorem foldl_lines_eq (l : List (List Char × List Char)) :
    ∀ (init : List Char),
      l.foldl (fun txt p => txt ++ exampleLine p) init = init ++ l.flatMap exampleLine := by
  induction l with
  | nil => intro init; simp
  | cons p rest ih =>
    intro init
    rw [List.foldl_cons, ih]
    simp

theorem mem_exampleLine (std : List Char) (c : Char) :
    c ∈ exampleLine (std, [c]) := by
  simp [exampleLine, List.mem_append]

/-- C3 (amended).  For every positive requested example count, every
character of a problem novel-notation text that is a key of the reverse
dict occurs in the legend block that the comparative-prompt path builds
for that problem (required symbols are the extracted reverse-mapped
characters of the novel text), and hence in the novel prompt itself.
The original claim also demanded this for a zero example count; the code
returns a fixed no-examples text there, see the counterexample. -/
theorem legend_coverage (m : MapperState) (sample : SampleFn)
    (num_examples : Nat) (problem : Problem) (c : Char)
    (hn : 0 < num_examples)
    (hc : c ∈ problem.novel_text)
    (hm : (dictGet [c] m.reverse_mappings).isSome) :
    c ∈ build_example_section m sample num_examples
        (extract_symbols_from_expression m problem.novel_text) ∧
    c ∈ (build_comparative_prompt m sample problem num_examples).2 := by
  have hreq : c ∈ extract_symbols_from_expression m problem.novel_text :=
    extract_symbols_mem hc hm
  obtain ⟨std, hstd⟩ := Option.isSome_iff_exists.mp hm
  have hpair : (std, [c]) ∈
      get_mappings_for_symbols m (extract_symbols_from_expression m problem.novel_text) :=
    get_mappings_mem hreq hstd
  have hne : extract_symbols_from_expression m problem.novel_text ≠ [] := by
    intro h
    rw [h] at hreq
    simp at hreq
  have hsec : c ∈ build_example_section m sample num_examples
      (extract_symbols_from_expression m problem.novel_text) := by
    rw [build_example_section, if_neg (Nat.pos_iff_ne_zero.mp hn)]
    have hmem_exs : ∀ exs : List (List Char × List Char),
        (std, [c]) ∈ exs →
        c ∈ strL "You will be given mathematical problems using a novel notation system. " ++
            strL "Here are the basic symbol mappings:\n\n" ++
            exs.foldl (fun txt p => txt ++ exampleLine p) [] ++
            strL "\nUsing these mappings, solve the following problems.\n" := by
      intro exs hmem
      apply List.mem_append_left
      apply List.mem_append_right
      rw [foldl_lines_eq]
      simp only [List.nil_append]
      exact List.mem_flatMap.mpr ⟨(std, [c]), hmem, mem_exampleLine std c⟩
    simp only [if_pos hne]
    by_cases h1 : ((num_examples : Int) -
        (get_mappings_for_symbols m
          (extract_symbols_from_expression m problem.novel_text)).length) > 0
    · simp only [if_pos h1]
      by_cases h2 : m.mappings.filter
          (fun p => decide (p ∉ get_mappings_for_symbols m
            (extract_symbols_from_expression m problem.novel_text))) ≠ []
      · simp only [if_pos h2]
        exact hmem_exs _ (List.mem_append_left _ hpair)
      · simp only [if_neg h2]
        exact hmem_exs _ hpair
    · simp only [if_neg h1]
      exact hmem_exs _ hpair
  refine ⟨hsec, ?_⟩
  simp only [build_comparative_prompt]
  apply List.mem_append_left
  apply List.mem_append_left
  apply List.mem_append_right
  exact hsec

/-- Witness for the amended C3 at a concrete mapper, problem and count. -/
theorem legend_coverage_witness :
    (0 < 5 ∧ '∴' ∈ problemC3.novel_text ∧
       (dictGet [Char.ofNat 8756] mapperC3.reverse_mappings).isSome) ∧
    ('∴' ∈ build_example_section mapperC3 sampleTake 5
        (extract_symbols_from_expression mapperC3 problemC3.novel_text) ∧
     '∴' ∈ (build_comparative_prompt mapperC3 sampleTake problemC3 5).2) :=
  ⟨⟨by decide, by decide, by decide⟩,
   legend_coverage mapperC3 sampleTake 5 problemC3 '∴' (by decide) (by decide) (by decide)⟩

/-- Counterexample to C3 as stated.  With a requested example count of
zero the legend is the fixed no-examples text, so the glyph present in
the problem novel text and under the jurisdiction of the mapper does not
occur in the legend block of the prompt built for that problem. -/
theorem legend_zero_examples_cex :
    '∴' ∈ problemC3.novel_text ∧
    (dictGet [Char.ofNat 8756] mapperC3.reverse_mappings).isSome ∧
    '∴' ∉ build_example_section mapperC3 sampleTake 0
        (extract_symbols_from_expression mapperC3 problemC3.novel_text) := by
  refine ⟨by decide, by decide, ?_⟩
  decide

/-- C4.  The three extraction patterns are applied in strict precedence.
The three spec examples hold: an answer-is phrase yields its number, a
trailing equals sign yields the number after it, and otherwise the last
number anywhere is returned.  A response in which the answer-is pattern and
the later patterns would extract different numbers follows pattern 1, and
a response with no number at all yields none. -/
theorem extract_answer_spec :
    extract_answer (strL "... the answer is 42") = some (strL "42") ∧
    extract_answer (strL "5 + 3 = 8") = some (strL "8") ∧
    extract_answer (strL "...final result: 17 widgets and 3 boxes") = some (strL "3") ∧
    extract_answer (strL "The Answer: -7.5 is final and x = 3") = some (strL "-7.5") ∧
    extract_answer (strL "no numerals here.") = none := by
  refine ⟨?_, ?_, ?_, ?_, ?_⟩ <;> decide

theorem floatVal_den_pos (sgn : List Char) (n : Nat) (e : Int) :
    0 < (floatVal sgn n e).2 := by
  rw [floatVal]
  by_cases h : 0 ≤ e
  · simp [h]
  · simp only [h, if_false]
    positivity

theorem pyFloat_den_pos {s : List Char} {p : Int × Nat}
    (h : pyFloat s = some p) : 0 < p.2 := by
  simp only [pyFloat] at h
  split at h
  · exact absurd h (by simp)
  · split at h
    · exact absurd h (by simp)
    · split at h
      · rw [Option.some_inj.mp h.symm]
        exact floatVal_den_pos _ _ _
      · exact absurd h (by simp)

theorem absDiffLt_iff {a b : Int × Nat} (ha : 0 < a.2) (hb : 0 < b.2) :
    absDiffLt a b (1, 100) = true ↔ |ratVal a - ratVal b| < 1 / 100 := by
  have hNat : absDiffLt a b (1, 100) = true ↔
      ((a.1 * (b.2 : Int) - b.1 * (a.2 : Int)).natAbs : Int) * 100 <
        (a.2 : Int) * (b.2 : Int) := by
    rw [absDiffLt, decide_eq_true_iff]
    constructor
    · intro h; simpa using h
    · intro h; simpa using h
  rw [hNat]
  have ha' : (0 : ℚ) < (a.2 : ℚ) := by exact_mod_cast ha
  have hb' : (0 : ℚ) < (b.2 : ℚ) := by exact_mod_cast hb
  have hane : (a.2 : ℚ) ≠ 0 := ne_of_gt ha'
  have hbne : (b.2 : ℚ) ≠ 0 := ne_of_gt hb'
  have hsub : ratVal a - ratVal b =
      ((a.1 * (b.2 : Int) - b.1 * (a.2 : Int) : Int) : ℚ) / ((a.2 : ℚ) * (b.2 : ℚ)) := by
    rw [ratVal, ratVal]
    field_simp
    ring
  rw [hsub, abs_div, abs_of_pos (by positivity : (0:ℚ) < (a.2 : ℚ) * (b.2 : ℚ)),
    div_lt_div_iff₀ (by positivity) (by norm_num : (0:ℚ) < 100)]
  rw [← Int.cast_abs, Int.abs_eq_natAbs]
  constructor
  · intro h
    rw [one_mul]
    exact_mod_cast h
  · intro h
    rw [one_mul] at h
    exact_mod_cast h

/-- C5.  check_answer is true exactly when both strings parse as numbers
whose rational values are closer than the fixed tolerance, and when
either string fails to parse it falls back to exact comparison of the
stripped strings; in particular the strings 8.0 and 8 compare correct
through the numeric path, and the strings eight and 8 compare incorrect
through the string path. -/
theorem check_answer_spec :
    check_answer (some (strL "8.0")) (strL "8") = true ∧
    check_answer (some (strL "eight")) (strL "8") = false ∧
    (∀ e x a b, pyFloat e = some a → pyFloat x = some b →
      (check_answer (some e) x = true ↔ |ratVal a - ratVal b| < 1 / 100)) ∧
    (∀ e x, pyFloat e = none ∨ pyFloat x = none →
      (check_answer (some e) x = true ↔ pyStrip e = pyStrip x)) := by
  refine ⟨by decide, by decide, ?_, ?_⟩
  · intro e x a b he hx
    have : check_answer (some e) x = absDiffLt a b (1, 100) := by
      simp [check_answer, he, hx]
    rw [this]
    exact absDiffLt_iff (pyFloat_den_pos he) (pyFloat_den_pos hx)
  · intro e x h
    rcases h with h | h
    · simp [check_answer, h]
    · cases he : pyFloat e with
      | none => simp [check_answer, he, h]
      | some a => simp [check_answer, he, h]

/-- Witness for C5: the numeric-path characterization applied at the
concrete pair of strings from the spec example, together with the two
concrete outcomes. -/
theorem check_answer_spec_witness :
    (pyFloat (strL "8.0") = some (80, 10) ∧ pyFloat (strL "8") = some (8, 1)) ∧
    (check_answer (some (strL "8.0")) (strL "8") = true ↔
      |ratVal (80, 10) - ratVal (8, 1)| < 1 / 100) :=
  ⟨⟨by decide, by decide⟩,
   check_answer_spec.2.2.1 (strL "8.0") (strL "8") (80, 10) (8, 1)
     (by decide) (by decide)⟩

theorem evaluate_loop_length (oracle : Nat → Except (List Char) ModelResponse)
    (model timestamp : List Char) :
    ∀ (l : List (Problem × List Char)) (start : Nat),
      (evaluate_loop oracle model timestamp start l).length = l.length := by
  intro l
  induction l with
  | nil => intro start; rfl
  | cons p rest ih =>
    intro start
    obtain ⟨problem, prompt⟩ := p
    simp [evaluate_loop, ih]

theorem evaluate_loop_get (oracle : Nat → Except (List Char) ModelResponse)
    (model timestamp : List Char) :
    ∀ (l : List (Problem × List Char)) (start i : Nat),
      (evaluate_loop oracle model timestamp start l)[i]? =
        (l[i]?).map (fun p => stepResult oracle model timestamp (start + i) p.1) := by
  intro l
  induction l with
  | nil => intro start i; simp [evaluate_loop]
  | cons p rest ih =>
    intro start i
    obtain ⟨problem, prompt⟩ := p
    cases i with
    | zero => simp [evaluate_loop]
    | succ j =>
      rw [evaluate_loop]
      rw [List.getElem?_cons_succ, List.getElem?_cons_succ, ih (start + 1) j]
      have : start + 1 + j = start + (j + 1) := by omega
      rw [this]

theorem zip_get_of_get {l1 : List Problem} {l2 : List (List Char)} :
    ∀ (i : Nat), l1.length = l2.length → ∀ problem, l1[i]? = some problem →
      ∃ pr, (l1.zip l2)[i]? = some (problem, pr) := by
  induction l1 generalizing l2 with
  | nil => intro i _ problem h; simp at h
  | cons a as ih =>
    intro i hlen problem h
    cases l2 with
    | nil => simp at hlen
    | cons b bs =>
      cases i with
      | zero =>
        rw [List.getElem?_cons_zero] at h
        exact ⟨b, by simp [Option.some_inj.mp h]⟩
      | succ j =>
        rw [List.getElem?_cons_succ] at h
        have hlen' : as.length = bs.length := by simpa using hlen
        obtain ⟨pr, hpr⟩ := ih j hlen' problem h
        exact ⟨pr, by simpa using hpr⟩

/-- C6.  For equal-length inputs, evaluate_problems returns a result
list of exactly the input length in input order regardless of per-request
failures: an entry whose remote call raises is the synthetic failed
result (null extracted answer, incorrect, zero token counts and latency,
error-describing response text), and an entry whose remote call succeeds
is the ordinary evaluation of its own response, unaffected by failures
elsewhere in the batch. -/
theorem evaluate_problems_partial_failure (problems : List Problem)
    (prompts : List (List Char))
    (oracle : Nat → Except (List Char) ModelResponse)
    (model timestamp : List Char)
    (h : problems.length = prompts.length) :
    ∃ rs, evaluate_problems problems prompts oracle model timestamp = .ok rs ∧
      rs.length = problems.length ∧
      (∀ i problem e, problems[i]? = some problem → oracle i = .error e →
        rs[i]? = some (failedResult model timestamp i problem e)) ∧
      (∀ i problem resp, problems[i]? = some problem → oracle i = .ok resp →
        rs[i]? = some (evaluate_problem resp problem i timestamp)) := by
  refine ⟨evaluate_loop oracle model timestamp 0 (problems.zip prompts), ?_, ?_, ?_, ?_⟩
  · rw [evaluate_problems, if_neg (by omega)]
  · rw [evaluate_loop_length, List.length_zip, h, Nat.min_self]
  · intro i problem e hp ho
    obtain ⟨pr, hpr⟩ := zip_get_of_get i h problem hp
    rw [evaluate_loop_get, hpr]
    simp [stepResult, ho, Nat.zero_add]
  · intro i problem resp hp ho
    obtain ⟨pr, hpr⟩ := zip_get_of_get i h problem hp
    rw [evaluate_loop_get, hpr]
    simp [stepResult, ho, Nat.zero_add]

/-- Witness for C6 at a concrete three-problem batch whose second request
fails. -/
theorem evaluate_problems_partial_failure_witness :
    problemsW.length = promptsW.length ∧
    (∃ rs, evaluate_problems problemsW promptsW oracleW (strL "test-model")
        (strL "t0") = .ok rs ∧
      rs.length = problemsW.length ∧
      (∀ i problem e, problemsW[i]? = some problem → oracleW i = .error e →
        rs[i]? = some (failedResult (strL "test-model") (strL "t0") i problem e)) ∧
      (∀ i problem resp, problemsW[i]? = some problem → oracleW i = .ok resp →
        rs[i]? = some (evaluate_problem resp problem i (strL "t0")))) :=
  ⟨by decide,
   evaluate_problems_partial_failure problemsW promptsW oracleW
     (strL "test-model") (strL "t0") (by decide)⟩

/-- C10.  When the problems list and the prompts list have different
lengths, evaluate_problems raises the length-mismatch error before
consulting the remote model at all — the outcome is this error for every
oracle, so no request is sent and no partial results are produced. -/
theorem evaluate_problems_length_mismatch (problems : List Problem)
    (prompts : List (List Char))
    (oracle : Nat → Except (List Char) ModelResponse)
    (model timestamp : List Char)
    (h : problems.length ≠ prompts.length) :
    evaluate_problems problems prompts oracle model timestamp =
      .error (strL "Number of problems must match number of prompts") := by
  rw [evaluate_problems, if_pos h]

/-- Witness for C10 at a concrete mismatched batch. -/
theorem evaluate_problems_length_mismatch_witness :
    problemsW.length ≠ (promptsW.take 2).length ∧
    evaluate_problems problemsW (promptsW.take 2) oracleW (strL "test-model")
      (strL "t0") =
      .error (strL "Number of problems must match number of prompts") :=
  ⟨by decide,
   evaluate_problems_length_mismatch problemsW (promptsW.take 2) oracleW
     (strL "test-model") (strL "t0") (by decide)⟩

theorem foldl_pair_snd (l : List (Char × Int)) :
    ∀ (e : List Char) (acc : Int),
      (l.foldl
        (fun (st : List Char × Int) p =>
          (st.1 ++ ' ' :: p.1 :: ' ' :: intStr p.2, applyOp p.1 st.2 p.2))
        (e, acc)).2
      = l.foldl (fun acc p => applyOp p.1 acc p.2) acc := by
  induction l with
  | nil => intro e acc; rfl
  | cons p rest ih =>
    intro e acc
    rw [List.foldl_cons, List.foldl_cons]
    exact ih _ _

/-- C7.  For every multi-step problem (any difficulty and mapper, any
values the random draws can produce), the stored answer is exactly the
strict left-to-right evaluation of the operand/operator sequence recorded
in its metadata; at medium difficulty this is 2 operators over 3
operands, at hard difficulty 3 operators over 4 operands, and the
operators are drawn from plus, minus and times. -/
theorem multi_step_answer (difficulty : ProblemDifficulty) (numbers : List Int)
    (operators : List Char) (mapper : Option MapperState)
    (h : MultiStepValid difficulty numbers operators) :
    (multiStep_generate difficulty numbers operators mapper).answer =
      intStr (evalLeftToRight numbers operators) ∧
    (multiStep_generate difficulty numbers operators mapper).metadata =
      .multiStep numbers operators ∧
    (difficulty = .MEDIUM → operators.length = 2 ∧ numbers.length = 3) ∧
    (difficulty = .HARD → operators.length = 3 ∧ numbers.length = 4) ∧
    (∀ op ∈ operators, op = '+' ∨ op = '-' ∨ op = '*') := by
  obtain ⟨hops, hnums, _hrange, hopset⟩ := h
  cases numbers with
  | nil => simp [multiStepNumOps] at hnums
  | cons n rest =>
    refine ⟨?_, rfl, ?_, ?_, hopset⟩
    · show intStr
        ((operators.zip ((n :: rest).drop 1)).foldl
          (fun (acc : List Char × Int) p =>
            (acc.1 ++ ' ' :: p.1 :: ' ' :: intStr p.2, applyOp p.1 acc.2 p.2))
          (intStr (n :: rest).headI, (n :: rest).headI)).2 = _
      rw [foldl_pair_snd]
      rfl
    · intro hd
      subst hd
      simp [multiStepNumOps] at hops hnums
      refine ⟨hops, ?_⟩
      simp only [List.length_cons]
      omega
    · intro hd
      subst hd
      simp [multiStepNumOps] at hops hnums
      refine ⟨hops, ?_⟩
      simp only [List.length_cons]
      omega

/-- Witness for C7 at a concrete medium multi-step draw. -/
theorem multi_step_answer_witness :
    MultiStepValid .MEDIUM [2, 3, 4] ['+', '*'] ∧
    ((multiStep_generate .MEDIUM [2, 3, 4] ['+', '*'] none).answer =
      intStr (evalLeftToRight [2, 3, 4] ['+', '*']) ∧
     (multiStep_generate .MEDIUM [2, 3, 4] ['+', '*'] none).metadata =
      .multiStep [2, 3, 4] ['+', '*'] ∧
     (ProblemDifficulty.MEDIUM = .MEDIUM → (['+', '*'] : List Char).length = 2 ∧
       ([2, 3, 4] : List Int).length = 3) ∧
     (ProblemDifficulty.MEDIUM = .HARD → (['+', '*'] : List Char).length = 3 ∧
       ([2, 3, 4] : List Int).length = 4) ∧
     (∀ op ∈ (['+', '*'] : List Char), op = '+' ∨ op = '-' ∨ op = '*')) :=
  ⟨by decide, multi_step_answer .MEDIUM [2, 3, 4] ['+', '*'] none (by decide)⟩

/-- C8.  generate_problem raises the no-template error for every
principle without a registered template, and transitivity and inverse
are exactly such principles: they exist as enum values but are absent
from the template map. -/
theorem generate_problem_no_template :
    (∀ p d m s, TEMPLATE_MAP p = none →
      generate_problem p d m s =
        .error (strL "No template found for principle: " ++ principleRepr p)) ∧
    TEMPLATE_MAP .TRANSITIVITY = none ∧
    TEMPLATE_MAP .INVERSE = none := by
  refine ⟨?_, rfl, rfl⟩
  intro p d m s h
  rw [generate_problem, h]

/-- Witness for C8: the error raised at the transitivity principle. -/
theorem generate_problem_no_template_witness :
    TEMPLATE_MAP .TRANSITIVITY = none ∧
    generate_problem .TRANSITIVITY .MEDIUM none 0 =
      .error (strL "No template found for principle: " ++
        principleRepr .TRANSITIVITY) :=
  ⟨rfl, generate_problem_no_template.1 .TRANSITIVITY .MEDIUM none 0 rfl⟩

/-- C9.  Two-run determinism: two sessions whose generator and mapper
are constructed with the same seed produce, for the same call sequence,
identical results — the same operand values, operators and answers in
every generated problem and the same symbol mappings.  In this embedding
the global seeded random stream is a pure state threaded through the
calls, so both runs are the same function of the seed and the call
sequence. -/
theorem two_run_determinism (S : Nat) (calls : List GenCall)
    (st1 st2 : RunState)
    (h1 : st1 = mkRunState S) (h2 : st2 = mkRunState S) :
    runSequence st1 calls = runSequence st2 calls := by
  rw [h1, h2]

/-- Witness for C9 at a concrete seed and call sequence. -/
theorem two_run_determinism_witness :
    (mkRunState 42 = mkRunState 42 ∧ mkRunState 42 = mkRunState 42) ∧
    runSequence (mkRunState 42)
        [.mapping .number [strL "7"] none, .problem .BASIC_ARITHMETIC .MEDIUM] =
      runSequence (mkRunState 42)
        [.mapping .number [strL "7"] none, .problem .BASIC_ARITHMETIC .MEDIUM] :=
  ⟨⟨rfl, rfl⟩,
   two_run_determinism 42
     [.mapping .number [strL "7"] none, .problem .BASIC_ARITHMETIC .MEDIUM]
     (mkRunState 42) (mkRunState 42) rfl rfl⟩

end Symboval
